import Mathlib

/-!
Verification of the uni-schedule-cloud schedule application (src/src/App.tsx).

The TypeScript source is shallowly embedded: JSON values decoded by
`JSON.parse` become the inductive `Json`; the browser-impure reads
(`Date.now()`, `new Date().toLocaleString("el-GR")`, `uid()`, the blocking
`confirm(...)` dialog and the `localStorage` contents) become explicit
parameters of the embedded functions, so that each React handler is a pure
state transformer.  Machine numbers that the app stores (epoch-millisecond
timestamps) are modelled as `Int`.
-/

namespace UniSchedule

/-- A decoded JSON value (the result of a successful `JSON.parse`). -/
inductive Json where
  | null
  | bool (b : Bool)
  | num (n : Int)
  | str (s : String)
  | arr (elems : List Json)
  | obj (fields : List (String × Json))

/-- JavaScript property access `v.k` on a decoded JSON value: `none` plays the
role of `undefined`.  A later duplicate key wins, as in evaluated JS object
literals. -/
def Json.getField : Json → String → Option Json
  | .obj fs, k => (fs.reverse.find? (fun p => p.1 == k)).map (fun p => p.2)
  | _, _ => none

/-- JavaScript truthiness of a decoded JSON value. -/
def Json.truthy : Json → Bool
  | .null => false
  | .bool b => b
  | .num n => n != 0
  | .str s => s != ""
  | .arr _ => true
  | .obj _ => true

/-- The idiom `typeof v === "string" ? v : ""` applied to an optional field. -/
def strOr (v : Option Json) : String :=
  match v with
  | some (.str s) => s
  | _ => ""

/-- The idiom `typeof v === "number" ? v : dflt` applied to an optional field. -/
def numOr (v : Option Json) (dflt : Int) : Int :=
  match v with
  | some (.num n) => n
  | _ => dflt

/-- The five weekdays of the grid (type `Day` in the source). -/
inductive Day where
  | Mon | Tue | Wed | Thu | Fri
deriving DecidableEq

/-- The serialized form of a `Day`, as it appears in stored JSON. -/
def Day.toStr : Day → String
  | .Mon => "Mon"
  | .Tue => "Tue"
  | .Wed => "Wed"
  | .Thu => "Thu"
  | .Fri => "Fri"

/-- The `isDay` type guard of the source, rendered as a parse: it succeeds on
exactly the five strings `"Mon"`, `"Tue"`, `"Wed"`, `"Thu"`, `"Fri"`. -/
def dayOfJson : Option Json → Option Day
  | some (.str "Mon") => some .Mon
  | some (.str "Tue") => some .Tue
  | some (.str "Wed") => some .Wed
  | some (.str "Thu") => some .Thu
  | some (.str "Fri") => some .Fri
  | _ => none

/-- Class types (type `ClassType` in the source). -/
inductive ClassType where
  | THEORY | LAB
deriving DecidableEq

/-- The `isClassType` type guard of the source, rendered as a parse. -/
def classTypeOfJson : Option Json → Option ClassType
  | some (.str "THEORY") => some .THEORY
  | some (.str "LAB") => some .LAB
  | _ => none

/-- JavaScript `String.prototype.trim()`: strips leading and trailing
whitespace (the app's titles and rooms only ever contain the four common
whitespace characters, which is what we model). -/
def jsWhitespace (c : Char) : Bool :=
  c == ' ' || c == '\t' || c == '\n' || c == '\r'

/-- `s.trim()` of JavaScript, executable by the kernel. -/
def jsTrim (s : String) : String :=
  ⟨((s.data.dropWhile jsWhitespace).reverse.dropWhile jsWhitespace).reverse⟩

/-- The regular expression `/^([01]\d|2[0-3]):[0-5]\d$/` of `isHHMM`. -/
def isHHMM (x : String) : Bool :=
  match x.toList with
  | [h1, h2, c, m1, m2] =>
      ((h1 == '0' || h1 == '1') && h2.isDigit || h1 == '2' &&
        (h2 == '0' || h2 == '1' || h2 == '2' || h2 == '3')) &&
      c == ':' && ('0' ≤ m1 && m1 ≤ '5') && m2.isDigit
  | _ => false

/-- Type `SlotDef` of the source. -/
structure SlotDef where
  id : String
  start : String
  «end» : String
  label : String
deriving DecidableEq

/-- Type `Course` of the source. -/
structure Course where
  id : String
  title : String
  defaultRoom : String
  defaultProfessors : String
  courseUrl : String
  createdAt : Int
deriving DecidableEq

/-- Type `Entry` of the source. -/
structure Entry where
  id : String
  courseId : String
  day : Day
  slotId : String
  classType : ClassType
  room : String
  professors : String
  courseUrl : String
  createdAt : Int
deriving DecidableEq

/-- One iteration of the `normalizeSlots` loop body: the element is kept
(with its defaulted label) exactly when it passes the shape checks.  Field
access on non-objects yields `undefined`, hence `""` after the `typeof`
coercions, so non-object elements fail the `!id` check; `null` and primitive
elements are skipped by the `!x || typeof x !== "object"` guard. -/
def slotOfJson (x : Json) : Option SlotDef :=
  match x with
  | .obj _ | .arr _ =>
      let id := strOr (x.getField "id")
      let start := strOr (x.getField "start")
      let end_ := strOr (x.getField "end")
      let label := strOr (x.getField "label")
      if id == "" || !isHHMM start || !isHHMM end_ then none
      else some { id := id, start := start, «end» := end_,
                  label := if label == "" then start ++ "–" ++ end_ else label }
  | _ => none

/-- One iteration of the `normalizeCourses` loop body.  `now` stands for the
`Date.now()` read used to default a missing `createdAt`. -/
def courseOfJson (now : Int) (x : Json) : Option Course :=
  match x with
  | .obj _ | .arr _ =>
      let id := strOr (x.getField "id")
      let title := strOr (x.getField "title")
      let defaultRoom := strOr (x.getField "defaultRoom")
      let defaultProfessors := strOr (x.getField "defaultProfessors")
      let courseUrl := strOr (x.getField "courseUrl")
      let createdAt := numOr (x.getField "createdAt") now
      if id == "" || jsTrim title == "" then none
      else some { id := id, title := jsTrim title, defaultRoom := defaultRoom,
                  defaultProfessors := defaultProfessors, courseUrl := courseUrl,
                  createdAt := createdAt }
  | _ => none

/-- One iteration of the `normalizeEntries` loop body. -/
def entryOfJson (now : Int) (x : Json) : Option Entry :=
  match x with
  | .obj _ | .arr _ =>
      let id := strOr (x.getField "id")
      let courseId := strOr (x.getField "courseId")
      let day := dayOfJson (x.getField "day")
      let slotId := strOr (x.getField "slotId")
      let classType := classTypeOfJson (x.getField "classType")
      let room := strOr (x.getField "room")
      let professors := strOr (x.getField "professors")
      let courseUrl := strOr (x.getField "courseUrl")
      let createdAt := numOr (x.getField "createdAt") now
      match day, classType with
      | some d, some ct =>
          if id == "" || courseId == "" || slotId == "" then none
          else some { id := id, courseId := courseId, day := d, slotId := slotId,
                      classType := ct, room := room, professors := professors,
                      courseUrl := courseUrl, createdAt := createdAt }
      | _, _ => none
  | _ => none

/-- `normalizeSlots` of the source: `Array.isArray` gate, then the
accept-or-skip loop. -/
def normalizeSlots (raw : Option Json) : List SlotDef :=
  match raw with
  | some (.arr xs) => xs.filterMap slotOfJson
  | _ => []

/-- `normalizeCourses` of the source. -/
def normalizeCourses (now : Int) (raw : Option Json) : List Course :=
  match raw with
  | some (.arr xs) => xs.filterMap (courseOfJson now)
  | _ => []

/-- `normalizeEntries` of the source. -/
def normalizeEntries (now : Int) (raw : Option Json) : List Entry :=
  match raw with
  | some (.arr xs) => xs.filterMap (entryOfJson now)
  | _ => []

/-- Whether an optional JSON value is an array (`Array.isArray`). -/
def isJsonArray : Option Json → Bool
  | some (.arr _) => true
  | _ => false

/-! ### The Schedule Store operations

The app's `slotMap` memo keys entries by the string `` `${day}__${slotId}` ``.
The five day prefixes are distinct, so the string key is in bijection with
the pair `(day, slotId)`; we key by the pair. -/

/-- Whether an entry occupies the cell `(d, slotId)`. -/
def entryKeyMatches (d : Day) (slotId : String) (e : Entry) : Bool :=
  e.day == d && e.slotId == slotId

/-- The `slotMap` lookup: the map is populated by iterating over `entries`
with `m.set(key, e)`, so the last entry with a given key wins. -/
def slotMapGet (entries : List Entry) (d : Day) (slotId : String) : Option Entry :=
  entries.reverse.find? (entryKeyMatches d slotId)

/-- The schedule form feeding `upsertEntry` (state variable `form`). -/
structure FormState where
  courseId : String
  day : Day
  slotId : String
  classType : ClassType
  room : String
  professors : String
  courseUrl : String

/-- `upsertEntry` of the source.  `confirmOverwrite` is the user's answer to
the blocking `confirm(...)` dialog (only consulted when the target cell is
occupied), `freshId` the `uid()` that would be drawn for a new entry, and
`now` the `Date.now()` read.  The two `alert` early-returns (no selected
course / no slots) leave the entries unchanged. -/
def upsertEntry (form : FormState) (slots : List SlotDef) (entries : List Entry)
    (confirmOverwrite : Bool) (freshId : String) (now : Int) : List Entry :=
  if form.courseId = "" then entries
  else if slots.length = 0 then entries
  else
    match slotMapGet entries form.day form.slotId with
    | some existing =>
        let newEntry : Entry :=
          { id := existing.id, courseId := form.courseId, day := form.day,
            slotId := form.slotId, classType := form.classType,
            room := jsTrim form.room, professors := jsTrim form.professors,
            courseUrl := jsTrim form.courseUrl, createdAt := existing.createdAt }
        if confirmOverwrite then
          entries.map (fun e => if e.id = existing.id then newEntry else e)
        else entries
    | none =>
        let newEntry : Entry :=
          { id := freshId, courseId := form.courseId, day := form.day,
            slotId := form.slotId, classType := form.classType,
            room := jsTrim form.room, professors := jsTrim form.professors,
            courseUrl := jsTrim form.courseUrl, createdAt := now }
        entries ++ [newEntry]

/-- `removeEntry` of the source. -/
def removeEntry (id : String) (entries : List Entry) : List Entry :=
  entries.filter (fun e => e.id != id)

/-- `deleteSlot` of the source: on a confirmed deletion the slot list and the
entries referencing the slot are filtered; a declined confirmation leaves
both untouched. -/
def deleteSlot (confirmDelete : Bool) (id : String) (slots : List SlotDef)
    (entries : List Entry) : List SlotDef × List Entry :=
  if confirmDelete then
    (slots.filter (fun s => s.id != id), entries.filter (fun e => e.slotId != id))
  else (slots, entries)

/-- `deleteCourse` of the source (the part that mutates the two collections;
the form-selection fixup touches neither collection). -/
def deleteCourse (confirmDelete : Bool) (id : String) (courses : List Course)
    (entries : List Entry) : List Course × List Entry :=
  if confirmDelete then
    (courses.filter (fun c => c.id != id), entries.filter (fun e => e.courseId != id))
  else (courses, entries)

/-- The data-model invariant: at most one entry per distinct `(day, slotId)`
pair. -/
def atMostOnePerDaySlot (entries : List Entry) : Prop :=
  List.Pairwise (fun a b => ¬(a.day = b.day ∧ a.slotId = b.slotId)) entries

instance : DecidablePred atMostOnePerDaySlot := fun l => by
  unfold atMostOnePerDaySlot; infer_instance

/-- All entry ids are distinct (every id is drawn from `uid()`). -/
def entryIdsNodup (entries : List Entry) : Prop :=
  (entries.map Entry.id).Nodup

instance : DecidablePred entryIdsNodup := fun l => by
  unfold entryIdsNodup; infer_instance

/-! ### Sample raw records for the normalizer claims -/

/-- A well-formed raw course record (title with surrounding whitespace,
`defaultProfessors`/`courseUrl` missing, hence defaulted to `""`). -/
def sampleGoodCourseJson : Json :=
  .obj [("id", .str "c1"), ("title", .str " Βάσεις Δεδομένων "),
        ("defaultRoom", .str "Α1"), ("createdAt", .num 5)]

/-- A raw course record missing the required `title` field. -/
def sampleMissingTitleJson : Json :=
  .obj [("id", .str "c2"), ("defaultRoom", .str "Β2"), ("createdAt", .num 9)]

/-- A raw entry record whose `day` is not one of the five weekday codes. -/
def sampleBadDayEntryJson : Json :=
  .obj [("id", .str "e1"), ("courseId", .str "c1"), ("day", .str "Sun"),
        ("slotId", .str "09-11"), ("classType", .str "THEORY")]

/-- A raw slot record whose `start` is not `HH:MM`. -/
def sampleBadTimeSlotJson : Json :=
  .obj [("id", .str "s1"), ("start", .str "9:00"), ("end", .str "11:00"),
        ("label", .str "x")]

/-! ### Grouping by course -/

/-- The `DAYS` constant: weekday keys with their Greek labels, in the fixed
Mon–Fri order. -/
def DAYS : List (Day × String) :=
  [(.Mon, "Δευτέρα"), (.Tue, "Τρίτη"), (.Wed, "Τετάρτη"), (.Thu, "Πέμπτη"), (.Fri, "Παρασκευή")]

/-- `dayOrder` of `groupByCourse`: `DAYS.findIndex((x) => x.key === d)`
(every `Day` is present, so the not-found case never fires). -/
def dayOrder (d : Day) : Nat :=
  DAYS.findIdx (fun x => x.1 == d)

/-- `slotOrder` of `groupByCourse`: the `slotIdx` map is filled by
`slots.forEach((s, i) => slotIdx.set(s.id, i))`, so for a duplicated slot id
the last index wins; a missing id yields `9999`. -/
def slotOrder (slots : List SlotDef) (slotId : String) : Nat :=
  match slots.enum.reverse.find? (fun p => p.2.id == slotId) with
  | some p => p.1
  | none => 9999

/-- `buildCourseMap` of the source, read through `Map.get` (the last
`set` for a key wins). -/
def buildCourseMap (courses : List Course) (cid : String) : Option Course :=
  courses.reverse.find? (fun c => c.id == cid)

/-- A group of `groupByCourse`: the course and its sessions. -/
structure CourseGroup where
  course : Course
  sessions : List Entry
deriving DecidableEq

/-- One `groupByCourse` loop step over the insertion-ordered group map:
`if (!map.has(c.id)) map.set(c.id, {course: c, sessions: []});`
`map.get(c.id)!.sessions.push(e)`. -/
def addSession : List (String × CourseGroup) → String → Course → Entry →
    List (String × CourseGroup)
  | [], cid, c, e => [(cid, ⟨c, [e]⟩)]
  | (k, g) :: rest, cid, c, e =>
      if k == cid then (k, ⟨g.course, g.sessions ++ [e]⟩) :: rest
      else (k, g) :: addSession rest cid c e

/-- The grouping loop of `groupByCourse`: entries whose course id does not
resolve are skipped; groups appear in first-visit order. -/
def groupEntries (entries : List Entry) (courses : List Course) :
    List (String × CourseGroup) :=
  entries.foldl (fun acc e =>
    match buildCourseMap courses e.courseId with
    | none => acc
    | some c => addSession acc c.id c e) []

/-- Modelled from the browser's `String.prototype.localeCompare(_, "el")`
(an external ICU collator, not app code): each Greek letter collates by its
alphabet position first (case-insensitively, final sigma with sigma), with
diacritics as a secondary key; other characters collate after the Greek
block by code point.  The key is primary weights, a `0` separator, then
secondary weights. -/
def greekCharKey (c : Char) : Nat × Nat :=
  match c with
  | 'Α' | 'α' => (1, 0)
  | 'Ά' | 'ά' => (1, 1)
  | 'Β' | 'β' => (2, 0)
  | 'Γ' | 'γ' => (3, 0)
  | 'Δ' | 'δ' => (4, 0)
  | 'Ε' | 'ε' => (5, 0)
  | 'Έ' | 'έ' => (5, 1)
  | 'Ζ' | 'ζ' => (6, 0)
  | 'Η' | 'η' => (7, 0)
  | 'Ή' | 'ή' => (7, 1)
  | 'Θ' | 'θ' => (8, 0)
  | 'Ι' | 'ι' => (9, 0)
  | 'Ί' | 'ί' => (9, 1)
  | 'Ϊ' | 'ϊ' => (9, 2)
  | 'ΐ' => (9, 3)
  | 'Κ' | 'κ' => (10, 0)
  | 'Λ' | 'λ' => (11, 0)
  | 'Μ' | 'μ' => (12, 0)
  | 'Ν' | 'ν' => (13, 0)
  | 'Ξ' | 'ξ' => (14, 0)
  | 'Ο' | 'ο' => (15, 0)
  | 'Ό' | 'ό' => (15, 1)
  | 'Π' | 'π' => (16, 0)
  | 'Ρ' | 'ρ' => (17, 0)
  | 'Σ' | 'σ' | 'ς' => (18, 0)
  | 'Τ' | 'τ' => (19, 0)
  | 'Υ' | 'υ' => (20, 0)
  | 'Ύ' | 'ύ' => (20, 1)
  | 'Ϋ' | 'ϋ' => (20, 2)
  | 'ΰ' => (20, 3)
  | 'Φ' | 'φ' => (21, 0)
  | 'Χ' | 'χ' => (22, 0)
  | 'Ψ' | 'ψ' => (23, 0)
  | 'Ω' | 'ω' => (24, 0)
  | 'Ώ' | 'ώ' => (24, 1)
  | _ => (1000 + c.toNat, 0)

/-- The collation key of a string under the modelled Greek collation. -/
def elCollationKey (s : String) : List Nat :=
  (s.data.map (fun c => (greekCharKey c).1)) ++ 0 :: s.data.map (fun c => (greekCharKey c).2)

/-- `a.localeCompare(b, "el") <= 0` under the modelled collation. -/
def localeCompareLE (a b : String) : Prop :=
  elCollationKey a ≤ elCollationKey b

instance : DecidableRel localeCompareLE := fun a b =>
  inferInstanceAs (Decidable (elCollationKey a ≤ elCollationKey b))

instance : IsTotal String localeCompareLE :=
  ⟨fun a b => le_total (elCollationKey a) (elCollationKey b)⟩

instance : IsTrans String localeCompareLE :=
  ⟨fun _ _ _ h1 h2 => le_trans h1 h2⟩

/-- The session comparator of `groupByCourse`
(`dayOrder(a) - dayOrder(b)`, then `slotOrder(a) - slotOrder(b)`), as the
induced total preorder. -/
def sessionLE (slots : List SlotDef) (a b : Entry) : Prop :=
  dayOrder a.day < dayOrder b.day
  ∨ (dayOrder a.day = dayOrder b.day ∧ slotOrder slots a.slotId ≤ slotOrder slots b.slotId)

instance (slots : List SlotDef) : DecidableRel (sessionLE slots) := fun a b => by
  unfold sessionLE; infer_instance

instance (slots : List SlotDef) : IsTotal Entry (sessionLE slots) :=
  ⟨fun a b => by unfold sessionLE; omega⟩

instance (slots : List SlotDef) : IsTrans Entry (sessionLE slots) :=
  ⟨fun a b c h1 h2 => by unfold sessionLE at *; omega⟩

/-- The group comparator of `groupByCourse`
(`a.course.title.localeCompare(b.course.title, "el")`). -/
def groupLE (g1 g2 : CourseGroup) : Prop :=
  localeCompareLE g1.course.title g2.course.title

instance : DecidableRel groupLE := fun g1 g2 =>
  inferInstanceAs (Decidable (localeCompareLE g1.course.title g2.course.title))

instance : IsTotal CourseGroup groupLE :=
  ⟨fun g1 g2 => IsTotal.total (r := localeCompareLE) g1.course.title g2.course.title⟩

instance : IsTrans CourseGroup groupLE :=
  ⟨fun _ _ _ h1 h2 => IsTrans.trans (r := localeCompareLE) _ _ _ h1 h2⟩

/-- `groupByCourse` of the source: group the entries by resolvable course,
sort each group's sessions by (weekday, slot position), and sort the groups
by title under the (modelled) Greek collation.  `Array.prototype.sort` is
modelled by the stable `insertionSort`. -/
def groupByCourse (entries : List Entry) (courses : List Course)
    (slots : List SlotDef) : List CourseGroup :=
  let raw := (groupEntries entries courses).map Prod.snd
  let sortedSessions := raw.map (fun g =>
    { course := g.course, sessions := List.insertionSort (sessionLE slots) g.sessions })
  List.insertionSort groupLE sortedSessions

/-! ### Backup export, import and cloud hydration -/

/-- UI theme (`type Theme`). -/
inductive Theme where
  | dark | light
deriving DecidableEq

/-- Serialized theme tag. -/
def Theme.toStr : Theme → String
  | .dark => "dark"
  | .light => "light"

/-- Export skin (`type ExportSkin`). -/
inductive ExportSkin where
  | default | lotr
deriving DecidableEq

/-- Serialized skin tag. -/
def ExportSkin.toStr : ExportSkin → String
  | .default => "default"
  | .lotr => "lotr"

/-- The persisted application state the restore path reads and writes. -/
structure StoredState where
  slots : List SlotDef
  courses : List Course
  entries : List Entry
  theme : Theme
  exportSkin : ExportSkin
deriving DecidableEq

/-- The combined outcome of the browser stages of `restoreFromHtmlFile`
(file read, `DOMParser`, `getElementById("uniScheduleBackup")`, trimmed
`textContent`, `JSON.parse`): the script element is absent, its text is
empty, its text is not valid JSON, or it parses to a JSON value. -/
inductive ExtractResult where
  | noScript
  | emptyText
  | badJson
  | parsed (backup : Json)

/-- What a run of `restoreFromHtmlFile` did: the state afterwards, whether
the stored collections were replaced, the rejection `alert` text if any, and
the `confirm` prompt text if the prompt was reached. -/
structure RestoreOutcome where
  st : StoredState
  replaced : Bool
  failure : Option String
  prompt : Option String
deriving DecidableEq

/-- The JavaScript strict comparison `backup.app !== "uni-schedule"`,
negated. -/
def appTagOk (backup : Json) : Bool :=
  match backup.getField "app" with
  | some (.str s) => s == "uni-schedule"
  | _ => false

/-- Truthiness of the `backup.data` field (`!backup.data` negated). -/
def dataFieldTruthy (backup : Json) : Bool :=
  match backup.getField "data" with
  | some v => v.truthy
  | none => false

/-- `restoreFromHtmlFile` of the source, from the extraction outcome on.
`confirmRestore` is the user's answer to the blocking `confirm`, `now` the
`Date.now()` used by the normalizers' `createdAt` defaults, and
`fmtTimestamp` the external `new Date(ms).toLocaleString("el-GR")`
formatter.  Mirrors the source's order of effects: the theme and skin are
applied before the empty-slots check and before the confirmation. -/
def restoreFromHtmlFile (ext : ExtractResult) (confirmRestore : Bool)
    (st : StoredState) (now : Int) (fmtTimestamp : Int → String) : RestoreOutcome :=
  match ext with
  | .noScript =>
      ⟨st, false, some "Δεν βρέθηκε backup μέσα στο HTML.\nΦρόντισε να είναι export από αυτή την εφαρμογή (programma.html).", none⟩
  | .emptyText =>
      ⟨st, false, some "Το backup μέσα στο HTML είναι κενό ή κατεστραμμένο.", none⟩
  | .badJson =>
      ⟨st, false, some "Το backup JSON μέσα στο HTML δεν είναι έγκυρο.", none⟩
  | .parsed backup =>
      if !backup.truthy || !appTagOk backup || !dataFieldTruthy backup then
        ⟨st, false, some "Το HTML δεν φαίνεται να είναι σωστό export της εφαρμογής.", none⟩
      else
        let theme' := match backup.getField "theme" with
          | some (.str "light") => Theme.light
          | some (.str "dark") => Theme.dark
          | _ => st.theme
        let skin' := match backup.getField "skin" with
          | some (.str "lotr") => ExportSkin.lotr
          | some (.str "default") => ExportSkin.default
          | _ => st.exportSkin
        let data := backup.getField "data"
        let slotsN := normalizeSlots (data.bind (fun d => d.getField "slots"))
        let coursesN := normalizeCourses now (data.bind (fun d => d.getField "courses"))
        let entriesN := normalizeEntries now (data.bind (fun d => d.getField "entries"))
        let st1 : StoredState := { st with theme := theme', exportSkin := skin' }
        if slotsN.length = 0 then
          ⟨st1, false, some "Το backup δεν έχει sessions/ώρες. Δεν μπορεί να γίνει επαναφορά.", none⟩
        else
          let slotIds := slotsN.map SlotDef.id
          let courseIds := coursesN.map Course.id
          let entriesFiltered := entriesN.filter
            (fun e => slotIds.contains e.slotId && courseIds.contains e.courseId)
          let exportedAt := match backup.getField "exportedAt" with
            | some (.num n) => fmtTimestamp n
            | _ => "άγνωστο"
          let promptMsg := "Θα γίνει ΕΠΑΝΑΦΟΡΑ από HTML backup.\n\nΗμερομηνία export: "
            ++ exportedAt ++ "\n\nΘες να αντικατασταθούν τα τωρινά δεδομένα;"
          if confirmRestore then
            ⟨⟨slotsN, coursesN, entriesFiltered, theme', skin'⟩, true, none, some promptMsg⟩
          else ⟨st1, false, none, some promptMsg⟩

/-- `applyPayload` of the cloud-hydration effect: normalizes the payload's
collections; when the normalized slots are non-empty it replaces the three
collections (entries filtered to resolvable slot/course references),
otherwise it changes nothing.  Theme/skin are handled by the caller. -/
def applyPayload (payload : Option Json) (now : Int) (st : StoredState) : StoredState :=
  let slotsN := normalizeSlots (payload.bind (fun d => d.getField "slots"))
  let coursesN := normalizeCourses now (payload.bind (fun d => d.getField "courses"))
  let entriesN := normalizeEntries now (payload.bind (fun d => d.getField "entries"))
  if 0 < slotsN.length then
    let slotIds := slotsN.map SlotDef.id
    let courseIds := coursesN.map Course.id
    { st with
      slots := slotsN, courses := coursesN,
      entries := entriesN.filter
        (fun e => slotIds.contains e.slotId && courseIds.contains e.courseId) }
  else st

/-- The JSON value `JSON.stringify` reads off a `SlotDef` object. -/
def slotToJson (s : SlotDef) : Json :=
  .obj [("id", .str s.id), ("start", .str s.start), ("end", .str s.«end»),
        ("label", .str s.label)]

/-- The JSON value `JSON.stringify` reads off a `Course` object. -/
def courseToJson (c : Course) : Json :=
  .obj [("id", .str c.id), ("title", .str c.title), ("defaultRoom", .str c.defaultRoom),
        ("defaultProfessors", .str c.defaultProfessors), ("courseUrl", .str c.courseUrl),
        ("createdAt", .num c.createdAt)]

/-- The serialized `ClassType` tag. -/
def ClassType.toStr : ClassType → String
  | .THEORY => "THEORY"
  | .LAB => "LAB"

/-- The JSON value `JSON.stringify` reads off an `Entry` object. -/
def entryToJson (e : Entry) : Json :=
  .obj [("id", .str e.id), ("courseId", .str e.courseId), ("day", .str e.day.toStr),
        ("slotId", .str e.slotId), ("classType", .str e.classType.toStr),
        ("room", .str e.room), ("professors", .str e.professors),
        ("courseUrl", .str e.courseUrl), ("createdAt", .num e.createdAt)]

/-- The `backup` object of `buildExportHtml` (embedded in the export as
`JSON.stringify(backup)` with `<` escaped, which `JSON.parse` inverts on
re-import): the app tag, version, export timestamp, theme, skin and the full
data. -/
def buildExportBackup (slots : List SlotDef) (courses : List Course)
    (entries : List Entry) (theme : Theme) (skin : ExportSkin)
    (exportedAt : Int) : Json :=
  .obj [("app", .str "uni-schedule"), ("version", .num 1),
        ("exportedAt", .num exportedAt), ("theme", .str theme.toStr),
        ("skin", .str skin.toStr),
        ("data", .obj [("slots", .arr (slots.map slotToJson)),
                       ("courses", .arr (courses.map courseToJson)),
                       ("entries", .arr (entries.map entryToJson))])]

/-! ### Legacy migration -/

/-- The fixed, version-ordered legacy storage keys (`LEGACY_ENTRY_KEYS`). -/
def LEGACY_ENTRY_KEYS : List String :=
  ["uni-schedule:v3", "uni-schedule:v2", "uni-schedule:v1"]

/-- Accumulator of the legacy-record loop: the `uid()` supply position, the
insertion-ordered `coursesMap` keyed by trimmed title, and the rewritten
entries. -/
structure LegacyAcc where
  nextUid : Nat
  coursesMap : List (String × Course)
  entries : List Entry

/-- One iteration of the `migrateLegacyIfNeeded` record loop: compute
`idOld` (consuming a `uid()` when the record has no string id), trim the
title, read `day`/`classType`/`slotId` (falling back to the `slot` key),
skip the record if title, day or slotId is invalid, otherwise get-or-create
the course for the trimmed title (first occurrence donates
room/professors/courseUrl and a fresh `uid()`), and append the rewritten
entry.  `uids` is the `uid()` supply, `now` the `Date.now()` reads. -/
def legacyStepBody (uids : Nat → String) (now : Int) (acc : LegacyAcc) (x : Json) : LegacyAcc :=
  let idOld := match x.getField "id" with
    | some (.str s) => s
    | _ => uids acc.nextUid
  let k1 := match x.getField "id" with
    | some (.str _) => acc.nextUid
    | _ => acc.nextUid + 1
  let title := jsTrim (strOr (x.getField "title"))
  let day := dayOfJson (x.getField "day")
  let classType := match classTypeOfJson (x.getField "classType") with
    | some ct => ct
    | none => ClassType.THEORY
  let slotId := match x.getField "slotId" with
    | some (.str s) => s
    | _ => match x.getField "slot" with
           | some (.str s) => s
           | _ => ""
  let room := strOr (x.getField "room")
  let professors := strOr (x.getField "professors")
  let courseUrl := strOr (x.getField "courseUrl")
  let createdAt := numOr (x.getField "createdAt") now
  match day with
  | none => { acc with nextUid := k1 }
  | some d =>
      if title == "" || slotId == "" then { acc with nextUid := k1 }
      else
        match acc.coursesMap.find? (fun p => p.1 == title) with
        | some p =>
            { nextUid := k1, coursesMap := acc.coursesMap,
              entries := acc.entries ++
                [⟨idOld, p.2.id, d, slotId, classType, room, professors, courseUrl, createdAt⟩] }
        | none =>
            let c : Course := ⟨uids k1, title, room, professors, courseUrl, now⟩
            { nextUid := k1 + 1, coursesMap := acc.coursesMap ++ [(title, c)],
              entries := acc.entries ++
                [⟨idOld, c.id, d, slotId, classType, room, professors, courseUrl, createdAt⟩] }

/-- The record-loop iteration: `legacyStepBody` behind the
`!x || typeof x !== "object"` guard. -/
def legacyStep (uids : Nat → String) (now : Int) (acc : LegacyAcc) (x : Json) : LegacyAcc :=
  match x with
  | .obj _ | .arr _ => legacyStepBody uids now acc x
  | _ => acc

/-- The per-key derivation of `migrateLegacyIfNeeded` once a legacy key has
parsed to an array: run the record loop, keep only entries whose `slotId`
is a configured slot, and sort the derived courses by title under the
(modelled) Greek collation. -/
def deriveLegacy (uids : Nat → String) (now : Int) (slots : List SlotDef)
    (xs : List Json) : List Course × List Entry :=
  let acc := xs.foldl (legacyStep uids now) ⟨0, [], []⟩
  let slotIds := slots.map SlotDef.id
  (List.insertionSort (fun a b => localeCompareLE a.title b.title) (acc.coursesMap.map Prod.snd),
   acc.entries.filter (fun e => slotIds.contains e.slotId))

/-- The key scan of `migrateLegacyIfNeeded` over the outcomes of reading and
`JSON.parse`-ing the `LEGACY_ENTRY_KEYS`, in order: `none` is an absent (or
empty) raw value, `some none` a raw value on which `JSON.parse` throws, and
`some (some v)` a successful parse.  The first array stops the scan; every
other outcome falls through to the next key. -/
def migrateScan (uids : Nat → String) (now : Int) (slots : List SlotDef) :
    List (Option (Option Json)) → List Course × List Entry
  | [] => ([], [])
  | none :: rest => migrateScan uids now slots rest
  | some none :: rest => migrateScan uids now slots rest
  | some (some (.arr xs)) :: _ => deriveLegacy uids now slots xs
  | some (some (.null)) :: rest => migrateScan uids now slots rest
  | some (some (.bool _)) :: rest => migrateScan uids now slots rest
  | some (some (.num _)) :: rest => migrateScan uids now slots rest
  | some (some (.str _)) :: rest => migrateScan uids now slots rest
  | some (some (.obj _)) :: rest => migrateScan uids now slots rest

/-- `migrateLegacyIfNeeded` of the source: when either current-format
collection is non-empty, return them unchanged; otherwise scan the legacy
keys. -/
def migrateLegacyIfNeeded (existingCourses : List Course) (existingEntries : List Entry)
    (slots : List SlotDef) (legacy : List (Option (Option Json)))
    (uids : Nat → String) (now : Int) : List Course × List Entry :=
  if 0 < existingCourses.length ∨ 0 < existingEntries.length then
    (existingCourses, existingEntries)
  else migrateScan uids now slots legacy

/-- A legacy-scan outcome that does not stop the scan (absent key,
unparseable value, or a parse that is not an array). -/
def legacySkippable : Option (Option Json) → Prop
  | none => True
  | some none => True
  | some (some (.arr _)) => False
  | some (some _) => True

/-- The trimmed title of an object-typed legacy record that passes the
validity check (title trimming non-empty, valid day, non-empty slotId or
slot). -/
def legacyValidTitleBody (x : Json) : Option String :=
  let title := jsTrim (strOr (x.getField "title"))
  let slotId := match x.getField "slotId" with
    | some (.str s) => s
    | _ => match x.getField "slot" with
           | some (.str s) => s
           | _ => ""
  match dayOfJson (x.getField "day") with
  | none => none
  | some _ => if title == "" || slotId == "" then none else some title

/-- The trimmed title of a legacy record that passes the validity check. -/
def legacyValidTitle (x : Json) : Option String :=
  match x with
  | .obj _ | .arr _ => legacyValidTitleBody x
  | _ => none

instance : DecidablePred legacySkippable
  | none => isTrue trivial
  | some none => isTrue trivial
  | some (some .null) => isTrue trivial
  | some (some (.bool _)) => isTrue trivial
  | some (some (.num _)) => isTrue trivial
  | some (some (.str _)) => isTrue trivial
  | some (some (.arr _)) => isFalse (fun h => h)
  | some (some (.obj _)) => isTrue trivial

/-- The invariant maintained by the legacy record loop. -/
def legacyAccInv (acc : LegacyAcc) : Prop :=
  (acc.coursesMap.map (fun p => p.2.title)).Nodup
  ∧ (∀ p ∈ acc.coursesMap, p.1 = p.2.title)
  ∧ (∀ e ∈ acc.entries, ∃ p ∈ acc.coursesMap, p.2.id = e.courseId)

/-- A deterministic `uid()` supply for concrete runs. -/
def uidsFix : Nat → String
  | 0 => "u0"
  | 1 => "u1"
  | 2 => "u2"
  | _ => "u?"

/-- A legacy record with id, untrimmed title, slotId and full metadata. -/
def legacyRecA : Json :=
  .obj [("id", .str "L1"), ("title", .str " Φυσική "), ("day", .str "Mon"),
        ("slotId", .str "09-11"), ("room", .str "Ρ1"), ("professors", .str "Καθ. Α"),
        ("courseUrl", .str "http://a")]

/-- A legacy record with the same trimmed title, no id (consumes a uid),
the old `slot` key, and a different room. -/
def legacyRecB : Json :=
  .obj [("title", .str "Φυσική"), ("day", .str "Tue"), ("slot", .str "09-11"),
        ("room", .str "Ρ2")]

/-- A legacy record with a distinct title whose slot is not configured. -/
def legacyRecC : Json :=
  .obj [("id", .str "L3"), ("title", .str "Χημεία"), ("day", .str "Wed"),
        ("slotId", .str "zz")]

/-! ### The export HTML renderer -/

/-- `THEME_KEY` of the source. -/
def THEME_KEY : String := "uni-schedule:theme:v1"

/-- `escapeHtml` of the source: the five sequential `replaceAll` passes.
No replacement output contains a character replaced by a later pass, so the
sequence equals one per-character pass. -/
def escapeHtml (s : String) : String :=
  String.join (s.data.map (fun c =>
    match c with
    | '&' => "&amp;"
    | '<' => "&lt;"
    | '>' => "&gt;"
    | '"' => "&quot;"
    | '\'' => "&#039;"
    | c => String.singleton c))

/-- `typeShort` of the source. -/
def typeShort : ClassType → String
  | .THEORY => "Θ"
  | .LAB => "Ε"

/-- `dayLabel` of the source (`DAYS.find(...)?.label ?? d`). -/
def dayLabel (d : Day) : String :=
  match DAYS.find? (fun x => x.1 == d) with
  | some x => x.2
  | none => d.toStr

/-- `slotLabel` of the source. -/
def slotLabel (slotId : String) (slots : List SlotDef) : String :=
  match slots.find? (fun s => s.id == slotId) with
  | some s => s.label
  | none => slotId

/-- A hexadecimal digit, for JSON control-character escapes. -/
def hexDigit (n : Nat) : Char :=
  if n < 10 then Char.ofNat (48 + n) else Char.ofNat (87 + n)

/-- The escape `JSON.stringify` applies to one character inside a string. -/
def jsonEscapeChar (c : Char) : String :=
  match c with
  | '"' => "\\\""
  | '\\' => "\\\\"
  | '\n' => "\\n"
  | '\r' => "\\r"
  | '\t' => "\\t"
  | '\x08' => "\\b"
  | '\x0c' => "\\f"
  | c =>
      if c.toNat < 32 then
        String.mk ['\\', 'u', '0', '0', hexDigit (c.toNat / 16), hexDigit (c.toNat % 16)]
      else String.singleton c

/-- `JSON.stringify` on a string value. -/
def jsonStringifyStr (s : String) : String :=
  "\"" ++ String.join (s.data.map jsonEscapeChar) ++ "\""

mutual

/-- `JSON.stringify` on a decoded JSON value (keys keep insertion order,
matching the evaluated object literals of the source). -/
def Json.stringify : Json → String
  | .null => "null"
  | .bool b => if b then "true" else "false"
  | .num n => toString n
  | .str s => jsonStringifyStr s
  | .arr xs => "[" ++ stringifyList xs ++ "]"
  | .obj fs => "\x7b" ++ stringifyFields fs ++ "\x7d"

/-- Comma-joined serialization of array elements. -/
def stringifyList : List Json → String
  | [] => ""
  | [x] => Json.stringify x
  | x :: rest => Json.stringify x ++ "," ++ stringifyList rest

/-- Comma-joined serialization of object fields. -/
def stringifyFields : List (String × Json) → String
  | [] => ""
  | [(k, v)] => jsonStringifyStr k ++ ":" ++ Json.stringify v
  | (k, v) :: rest => jsonStringifyStr k ++ ":" ++ Json.stringify v ++ "," ++ stringifyFields rest

end

/-- The `.replace(/</g, "\\u003c")` pass applied to the embedded backup
JSON. -/
def escapeLtU (s : String) : String :=
  String.join (s.data.map (fun c => if c == '<' then "\\u003c" else String.singleton c))

/-- The effective room `(room || c?.defaultRoom || "").trim() || "—"`. -/
def effectiveRoomStr (room : String) (c : Option Course) : String :=
  let r0 := if room != "" then room else match c with
    | some c => c.defaultRoom
    | none => ""
  let r1 := jsTrim r0
  if r1 == "" then "—" else r1

/-- The `EXPORT_CSS_DEFAULT` style sheet of `buildExportHtml`, verbatim. -/
def EXPORT_CSS_DEFAULT : String :=
  "\n:root\x7b\n  --cyan:#22d3ee;\n  --pink:#ff2d55;\n  --purple:#7c3aed;\n  --shadow: 0 14px 42px rgba(0,0,0,.60);\n\x7d\nhtml[data-theme=\"dark\"]\x7b\n  color-scheme: dark;\n  --bg0:#05070b;\n  --bg1:#0b1020;\n  --text:#e5e7eb;\n  --muted:#94a3b8;\n  --border: rgba(255,255,255,.10);\n  --card: rgba(8,12,22,.78);\n  --card2: rgba(8,12,22,.68);\n  --empty: rgba(8,12,22,.35);\n  --dash: rgba(148,163,184,.25);\n  --btn: rgba(15,23,42,.75);\n\x7d\nhtml[data-theme=\"light\"]\x7b\n  color-scheme: light;\n  --bg0:#f8fafc;\n  --bg1:#eef2ff;\n  --text:#0f172a;\n  --muted:#475569;\n  --border: rgba(15,23,42,.12);\n  --card: rgba(255,255,255,.88);\n  --card2: rgba(255,255,255,.75);\n  --empty: rgba(255,255,255,.55);\n  --dash: rgba(15,23,42,.18);\n  --btn: rgba(255,255,255,.92);\n  --shadow: 0 14px 42px rgba(2,6,23,.10);\n\x7d\nbody\x7b\n  font-family: system-ui,-apple-system,Segoe UI,Roboto,Arial;\n  margin:18px;\n  color:var(--text);\n  background:\n    radial-gradient(900px 520px at 10% 0%, rgba(124,58,237,.18), transparent 58%),\n    radial-gradient(780px 480px at 90% 10%, rgba(255,45,85,.14), transparent 58%),\n    radial-gradient(920px 640px at 50% 120%, rgba(34,211,238,.08), transparent 58%),\n    linear-gradient(180deg, var(--bg0), var(--bg1));\n\x7d\n.wrap\x7bmax-width:1100px; margin:0 auto;\x7d\nh1\x7bmargin:0 0 6px; font-size:22px; letter-spacing:.3px;\x7d\n.sub\x7bcolor:var(--muted); margin-bottom:14px; font-size:13px;\x7d\n\n.topBar\x7bdisplay:flex; align-items:flex-start; justify-content:space-between; gap:12px; margin-bottom:10px;\x7d\n.tbtn\x7b\n  border:1px solid var(--border);\n  background: var(--btn);\n  color: var(--text);\n  padding:10px 12px;\n  border-radius:12px;\n  cursor:pointer;\n  font-weight:900;\n\x7d\n.tbtn:hover\x7b border-color: rgba(34,211,238,.35); \x7d\n\n.tableScroll\x7boverflow:auto; -webkit-overflow-scrolling: touch; padding-bottom:6px;\x7d\ntable\x7bwidth:100%; border-collapse:separate; border-spacing:10px; table-layout:fixed; min-width:860px;\x7d\nth, td\x7bvertical-align:top;\x7d\n.colHead,.rowHead\x7b\n  font-family: ui-monospace, SFMono-Regular, Menlo, Monaco, Consolas, \"Liberation Mono\", \"Courier New\", monospace;\n  color:var(--muted);\n\x7d\n.colHead\x7bfont-size:12.5px; text-align:left; padding-left:4px;\x7d\n.rowHead\x7bfont-size:12px; text-align:right; padding-right:6px; width:140px;\x7d\n\n.cell\x7bbackground: var(--card); border:1px solid var(--border); border-radius:16px; padding:10px; min-height:68px; box-shadow: var(--shadow);\x7d\n.empty\x7bbackground: var(--empty); border:1px dashed var(--dash); box-shadow:none;\x7d\n.cellTitle\x7bfont-weight:900; font-size:13px; margin-bottom:6px; letter-spacing:.2px;\x7d\n.cellMeta\x7bdisplay:flex; gap:8px; align-items:center; font-size:12px; color: color-mix(in srgb, var(--text) 80%, var(--muted));\x7d\n\nhr\x7bborder:none; border-top:1px solid color-mix(in srgb, var(--border) 70%, transparent); margin:18px 0;\x7d\nul\x7blist-style:none; padding:0; margin:0; display:flex; flex-direction:column; gap:10px;\x7d\n.li\x7bbackground: var(--card2); border:1px solid var(--border); border-radius:16px; padding:12px; box-shadow: var(--shadow); break-inside: avoid;\x7d\n.liTitle\x7bfont-weight:950; margin-bottom:6px; letter-spacing:.2px;\x7d\n.liMeta\x7bfont-size:13px; color: color-mix(in srgb, var(--text) 82%, var(--muted)); margin-top:6px;\x7d\n.muted\x7bcolor:var(--muted);\x7d\na\x7bcolor: var(--cyan); text-decoration:none;\x7d\na:hover\x7btext-decoration:underline;\x7d\n.sessionRow\x7bdisplay:flex; gap:8px; align-items:center; flex-wrap:wrap; margin-top:8px; padding-top:8px; border-top:1px solid color-mix(in srgb, var(--border) 70%, transparent); break-inside: avoid;\x7d\n.badge\x7bdisplay:inline-flex; align-items:center; justify-content:center; padding:2px 8px; border-radius:999px; border:1px solid color-mix(in srgb, var(--border) 90%, transparent); background: color-mix(in srgb, var(--btn) 85%, transparent); font-weight:950; font-size:12px;\x7d\n.room\x7bopacity:.9;\x7d\n"

/-- The `EXPORT_CSS_LOTR` style sheet of `buildExportHtml`, verbatim. -/
def EXPORT_CSS_LOTR : String :=
  "\n:root\x7b\n  --gold:#d4af37;\n  --olive:#2f3b2f;\n  --ink:#1e1a12;\n  --shadow: 0 18px 46px rgba(0,0,0,.35);\n\x7d\nhtml[data-theme=\"dark\"]\x7b\n  color-scheme: dark;\n  --bg0:#070a06;\n  --bg1:#10140e;\n  --text:#efe7d6;\n  --muted:#b9b0a0;\n\n  --border: rgba(212,175,55,.22);\n  --dash: rgba(185,176,160,.22);\n\n  --card: rgba(20,26,18,.76);\n  --card2: rgba(20,26,18,.62);\n  --empty: rgba(20,26,18,.34);\n\n  --btn: rgba(20,26,18,.72);\n\x7d\nhtml[data-theme=\"light\"]\x7b\n  color-scheme: light;\n  --bg0:#fbf2dc;\n  --bg1:#f1e5c4;\n  --text:#1e1a12;\n  --muted:#5b5246;\n\n  --border: rgba(47,59,47,.22);\n  --dash: rgba(30,26,18,.16);\n\n  --card: rgba(255,255,255,.78);\n  --card2: rgba(255,255,255,.66);\n  --empty: rgba(255,255,255,.52);\n\n  --btn: rgba(255,255,255,.90);\n\x7d\nbody\x7b\n  font-family: ui-serif, Georgia, \"Times New Roman\", serif;\n  margin:18px;\n  color:var(--text);\n  background:\n    radial-gradient(900px 520px at 12% 0%, rgba(212,175,55,.10), transparent 58%),\n    radial-gradient(800px 520px at 88% 8%, rgba(47,59,47,.12), transparent 60%),\n    linear-gradient(180deg, var(--bg0), var(--bg1));\n\x7d\nbody::after\x7b\n  content:\"\";\n  position: fixed;\n  inset:0;\n  pointer-events:none;\n  opacity:.10;\n  background-image:\n    url(\"data:image/svg+xml,%3Csvg xmlns=\x27http://www.w3.org/2000/svg\x27 width=\x27160\x27 height=\x27160\x27%3E%3Cfilter id=\x27n\x27%3E%3CfeTurbulence type=\x27fractalNoise\x27 baseFrequency=\x27.8\x27 numOctaves=\x273\x27 stitchTiles=\x27stitch\x27/%3E%3C/filter%3E%3Crect width=\x27160\x27 height=\x27160\x27 filter=\x27url(%23n)\x27 opacity=\x27.35\x27/%3E%3C/svg%3E\");\n  mix-blend-mode: multiply;\n\x7d\n.wrap\x7bmax-width:1100px; margin:0 auto;\x7d\nh1\x7bmargin:0 0 6px; font-size:22px; letter-spacing:.6px; font-weight:900;\x7d\n.sub\x7bcolor:var(--muted); margin-bottom:14px; font-size:13px;\x7d\n\n.topBar\x7bdisplay:flex; align-items:flex-start; justify-content:space-between; gap:12px; margin-bottom:10px;\x7d\n.tbtn\x7b\n  border:1px solid var(--border);\n  background: var(--btn);\n  color: var(--text);\n  padding:10px 12px;\n  border-radius:14px;\n  cursor:pointer;\n  font-weight:900;\n\x7d\n.tbtn:hover\x7bborder-color: rgba(212,175,55,.45);\x7d\n\n.tableScroll\x7boverflow:auto; -webkit-overflow-scrolling: touch; padding-bottom:6px;\x7d\ntable\x7bwidth:100%; border-collapse:separate; border-spacing:10px; table-layout:fixed; min-width:860px;\x7d\nth, td\x7bvertical-align:top;\x7d\n.colHead,.rowHead\x7b\n  font-family: ui-monospace, SFMono-Regular, Menlo, Monaco, Consolas, \"Liberation Mono\", \"Courier New\", monospace;\n  color:var(--muted);\n\x7d\n.colHead\x7bfont-size:12.5px; text-align:left; padding-left:4px;\x7d\n.rowHead\x7bfont-size:12px; text-align:right; padding-right:6px; width:140px;\x7d\n\n.cell\x7b\n  border-radius:18px;\n  padding:10px;\n  min-height:68px;\n  border:1px solid var(--border);\n  background:\n    radial-gradient(220px 120px at 20% 10%, rgba(212,175,55,.10), transparent 55%),\n    linear-gradient(180deg, var(--card), rgba(0,0,0,0));\n  box-shadow: var(--shadow);\n\x7d\n.empty\x7b\n  background: var(--empty);\n  border:1px dashed var(--dash);\n  box-shadow:none;\n\x7d\n.cellTitle\x7bfont-weight:900; font-size:13px; margin-bottom:6px; letter-spacing:.25px;\x7d\n.cellMeta\x7bdisplay:flex; gap:8px; align-items:center; font-size:12px; color: color-mix(in srgb, var(--text) 80%, var(--muted));\x7d\n.badge\x7b\n  display:inline-flex; align-items:center; justify-content:center;\n  padding:2px 8px; border-radius:999px;\n  border:1px solid var(--border);\n  background: rgba(212,175,55,.10);\n  font-weight:900; font-size:12px;\n\x7d\n.room\x7bopacity:.9;\x7d\n\nhr\x7bborder:none; border-top:1px solid rgba(212,175,55,.18); margin:18px 0;\x7d\nul\x7blist-style:none; padding:0; margin:0; display:flex; flex-direction:column; gap:10px;\x7d\n.li\x7bbackground: var(--card2); border:1px solid var(--border); border-radius:18px; padding:12px; box-shadow: var(--shadow); break-inside: avoid;\x7d\n.liTitle\x7bfont-weight:900; margin-bottom:6px; letter-spacing:.25px;\x7d\n.liMeta\x7bfont-size:13px; color: color-mix(in srgb, var(--text) 82%, var(--muted)); margin-top:6px;\x7d\n.muted\x7bcolor:var(--muted);\x7d\na\x7bcolor: var(--olive); text-decoration:none; font-weight:800;\x7d\na:hover\x7btext-decoration:underline;\x7d\n.sessionRow\x7bdisplay:flex; gap:8px; align-items:center; flex-wrap:wrap; margin-top:8px; padding-top:8px; border-top:1px solid rgba(212,175,55,.14); break-inside: avoid;\x7d\n"

/-- `buildExportHtml` of the source: the full standalone HTML document —
table, grouped list, embedded JSON backup and inline theme-toggle script.
The two impure clock reads are explicit arguments: `exportedAtMs` is the
`Date.now()` stored in the backup and `nowLocale` the
`new Date().toLocaleString("el-GR")` shown in the header. -/
def buildExportHtml (slots : List SlotDef) (courses : List Course)
    (entries : List Entry) (theme : Theme) (skin : ExportSkin)
    (exportedAtMs : Int) (nowLocale : String) : String :=
  let tableRows := String.join (slots.map (fun slot =>
    let cells := String.join (DAYS.map (fun day =>
      match slotMapGet entries day.1 slot.id with
      | none => "<td class=\"cell empty\"></td>"
      | some e =>
          let c := buildCourseMap courses e.courseId
          let title := match c with
            | some c => c.title
            | none => "—"
          let effRoom := effectiveRoomStr e.room c
          "\n          <td class=\"cell\">\n            <div class=\"cellTitle\">"
            ++ escapeHtml title
            ++ "</div>\n            <div class=\"cellMeta\">\n              <span class=\"badge\">"
            ++ typeShort e.classType
            ++ "</span>\n              <span class=\"room\">"
            ++ escapeHtml effRoom
            ++ "</span>\n            </div>\n          </td>\n        "))
    "\n        <tr>\n          <th class=\"rowHead\">" ++ escapeHtml slot.label
      ++ "</th>\n          " ++ cells ++ "\n        </tr>\n      "))
  let groups := groupByCourse entries courses slots
  let listItems := String.join (groups.map (fun g =>
    let course := g.course
    let profPart := if jsTrim course.defaultProfessors != "" then
        escapeHtml (jsTrim course.defaultProfessors)
      else "—"
    let urlPart := if jsTrim course.courseUrl != "" then
        "<a href=\"" ++ escapeHtml (jsTrim course.courseUrl)
          ++ "\" target=\"_blank\" rel=\"noreferrer\">" ++ escapeHtml (jsTrim course.courseUrl)
          ++ "</a>"
      else "<span class=\"muted\">—</span>"
    let sessionsHtml := String.join (g.sessions.map (fun s =>
      let effRoom := effectiveRoomStr s.room (some course)
      "\n            <div class=\"sessionRow\">\n              <span>"
        ++ escapeHtml (dayLabel s.day) ++ " — " ++ escapeHtml (slotLabel s.slotId slots)
        ++ "</span>\n              <span class=\"badge\">" ++ typeShort s.classType
        ++ "</span>\n              <span class=\"room\">" ++ escapeHtml effRoom
        ++ "</span>\n            </div>\n          "))
    "\n        <li class=\"li\">\n          <div class=\"liTitle\">" ++ escapeHtml course.title
      ++ "</div>\n          <div class=\"liMeta\"><b>Καθηγητές:</b> " ++ profPart
      ++ "</div>\n          <div class=\"liMeta\"><b>Σελίδα μαθήματος:</b> " ++ urlPart
      ++ "</div>\n          <div class=\"liMeta\"><b>Ώρες/slots:</b></div>\n          "
      ++ (if sessionsHtml == "" then "<div class=\"muted\">—</div>" else sessionsHtml)
      ++ "\n        </li>\n      "))
  let backupJson := escapeLtU
    (Json.stringify (buildExportBackup slots courses entries theme skin exportedAtMs))
  let exportCss := match skin with
    | .lotr => EXPORT_CSS_LOTR
    | .default => EXPORT_CSS_DEFAULT
  "<!doctype html>\n<html lang=\"el\" data-theme=\""
    ++ (Theme.toStr theme)
    ++ "\">\n<head>\n  <meta charset=\"utf-8\" />\n  <meta name=\"viewport\" content=\"width=device-width, initial-scale=1\" />\n  <title>Εβδομαδιαίο Πρόγραμμα</title>\n  <style>\n"
    ++ exportCss
    ++ "\n  </style>\n</head>\n<body>\n  <div class=\"wrap\">\n    <div class=\"topBar\">\n      <div>\n        <h1>Εβδομαδιαίο Πρόγραμμα</h1>\n        <div class=\"sub\">Παραγωγή: "
    ++ (escapeHtml nowLocale)
    ++ "</div>\n      </div>\n      <button id=\"themeToggle\" class=\"tbtn\" type=\"button\">Toggle</button>\n    </div>\n\n    <div class=\"tableScroll\">\n      <table>\n        <thead>\n          <tr>\n            <th></th>\n            "
    ++ (String.join (DAYS.map (fun d => "<th class=\"colHead\">" ++ escapeHtml d.2 ++ "</th>")))
    ++ "\n          </tr>\n        </thead>\n        <tbody>\n          "
    ++ tableRows
    ++ "\n        </tbody>\n      </table>\n    </div>\n\n    <hr />\n\n    <h1>Λίστα μαθημάτων</h1>\n    <div class=\"sub\">Ομαδοποιημένα ανά μάθημα</div>\n\n    <ul>\n      "
    ++ (if listItems == "" then "<li class=\"li\"><span class=\"muted\">Δεν υπάρχουν καταχωρήσεις.</span></li>" else listItems)
    ++ "\n    </ul>\n  </div>\n\n  <!-- Embedded backup (for restore inside the app) -->\n  <script id=\"uniScheduleBackup\" type=\"application/json\">"
    ++ backupJson
    ++ "</script>\n\n  <script>\n  (function()\x7b\n    const KEY = \""
    ++ THEME_KEY
    ++ "\";\n    const root = document.documentElement;\n\n    function apply(t)\x7b\n      root.setAttribute(\"data-theme\", t);\n      root.style.colorScheme = t;\n      const btn = document.getElementById(\"themeToggle\");\n      if(btn) btn.textContent = (t === \"dark\") ? \"Light mode\" : \"Dark mode\";\n    \x7d\n\n    const saved = localStorage.getItem(KEY);\n    const initial =\n      (saved === \"light\" || saved === \"dark\")\n        ? saved\n        : (root.getAttribute(\"data-theme\") || \"dark\");\n\n    apply(initial);\n\n    const btn = document.getElementById(\"themeToggle\");\n    if(btn)\x7b\n      btn.addEventListener(\"click\", function()\x7b\n        const cur = root.getAttribute(\"data-theme\") === \"dark\" ? \"dark\" : \"light\";\n        const next = (cur === \"dark\") ? \"light\" : \"dark\";\n        localStorage.setItem(KEY, next);\n        apply(next);\n      \x7d);\n    \x7d\n  \x7d)();\n  </script>\n</body>\n</html>"

/-! ### Concrete store fixtures used by witnesses -/

/-- A one-slot slot list. -/
def slotsFix : List SlotDef := [⟨"09-11", "09:00", "11:00", "09:00–11:00"⟩]

/-- The occupant of `(Mon, 09-11)` in the fixtures. -/
def exFix : Entry := ⟨"e1", "c0", .Mon, "09-11", .LAB, "", "", "", 3⟩

/-- A one-entry entries list occupying `(Mon, 09-11)`. -/
def entriesFix : List Entry := [exFix]

/-- A form submission targeting the occupied `(Mon, 09-11)` cell. -/
def formFix : FormState := ⟨"c1", .Mon, "09-11", .THEORY, " R1 ", " P ", "U", ⟩

/-- A course fixture referenced by the entry fixtures. -/
def courseFix : Course := ⟨"c0", "Μάθημα", "", "", "", 1⟩

/-- A second entry occupying the same `(Mon, 09-11)` cell as `exFix`. -/
def exFix2 : Entry := ⟨"e2", "c0", .Mon, "09-11", .THEORY, "", "", "", 4⟩

/-- The empty stored state. -/
def stEmpty : StoredState := ⟨[], [], [], .dark, .default⟩

/-- A non-trivial stored state. -/
def stFix : StoredState := ⟨slotsFix, [courseFix], entriesFix, .dark, .default⟩

/-- A parsed backup whose `app` tag matches but that carries no `data`. -/
def noDataBackupJson : Json := .obj [("app", .str "uni-schedule")]

/-- An app-tagged backup document whose data holds two valid entries for the
same `(Mon, 09-11)` cell. -/
def dupKeyBackupJson : Json :=
  buildExportBackup slotsFix [courseFix] [exFix, exFix2] .dark .default 0

/-- A slot with an empty label (otherwise well-formed). -/
def slotNoLabel : SlotDef := ⟨"s1", "09:00", "11:00", ""⟩

/-- A course whose title starts with unaccented alpha. -/
def courseAlpha : Course := ⟨"c1", "Αβγό", "", "", "", 0⟩

/-- A course whose title starts with accented alpha (code point above Β). -/
def courseAccent : Course := ⟨"c2", "Άτομο", "", "", "", 0⟩

/-- An entry for `courseAlpha`. -/
def entryAlpha : Entry := ⟨"x1", "c1", .Tue, "09-11", .THEORY, "", "", "", 0⟩

/-- An entry for `courseAccent`. -/
def entryAccent : Entry := ⟨"x2", "c2", .Mon, "09-11", .LAB, "", "", "", 0⟩

/-! ## Theorems -/

theorem entryKeyMatches_iff {d : Day} {s : String} {e : Entry} :
    entryKeyMatches d s e = true ↔ e.day = d ∧ e.slotId = s := by
  simp [entryKeyMatches]

theorem slotMapGet_mem {es : List Entry} {d : Day} {s : String} {ex : Entry}
    (h : slotMapGet es d s = some ex) : ex ∈ es ∧ ex.day = d ∧ ex.slotId = s :=
  ⟨List.mem_reverse.mp (List.mem_of_find?_eq_some h),
   entryKeyMatches_iff.mp (List.find?_some h)⟩

theorem filter_key_eq_singleton {es : List Entry} {d : Day} {s : String} {ex : Entry}
    (hinv : atMostOnePerDaySlot es) (hmem : ex ∈ es)
    (hday : ex.day = d) (hslot : ex.slotId = s) :
    es.filter (entryKeyMatches d s) = [ex] := by
  have hpw : List.Pairwise (fun a b => ¬(a.day = b.day ∧ a.slotId = b.slotId))
      (es.filter (entryKeyMatches d s)) :=
    List.Pairwise.sublist (List.filter_sublist es) hinv
  have hexf : ex ∈ es.filter (entryKeyMatches d s) :=
    List.mem_filter.mpr ⟨hmem, entryKeyMatches_iff.mpr ⟨hday, hslot⟩⟩
  rcases hl : es.filter (entryKeyMatches d s) with _ | ⟨a, rest⟩
  · rw [hl] at hexf; cases hexf
  · rcases rest with _ | ⟨b, t⟩
    · rw [hl] at hexf
      have : ex = a := by simpa using hexf
      rw [this]
    · exfalso
      rw [hl] at hpw
      have hab : ¬(a.day = b.day ∧ a.slotId = b.slotId) :=
        (List.pairwise_cons.mp hpw).1 b (List.mem_cons_self b t)
      have ha : a ∈ es.filter (entryKeyMatches d s) := by
        rw [hl]; exact List.mem_cons_self a _
      have hb : b ∈ es.filter (entryKeyMatches d s) := by
        rw [hl]; exact List.mem_cons_of_mem a (List.mem_cons_self b t)
      have ha' := entryKeyMatches_iff.mp (List.mem_filter.mp ha).2
      have hb' := entryKeyMatches_iff.mp (List.mem_filter.mp hb).2
      exact hab ⟨ha'.1.trans hb'.1.symm, ha'.2.trans hb'.2.symm⟩

/-- C1: with the target `(day, slotId)` occupied (and the upsert actually
reachable: a course is selected and at least one slot exists), a denied
confirmation leaves the entries untouched, and a granted confirmation leaves
exactly one entry at that `(day, slotId)`, carrying the submitted `courseId`,
`classType` and the trimmed submitted `room`, `professors` and `courseUrl`.
The hypotheses `atMostOnePerDaySlot` and `entryIdsNodup` are the app's own
state invariants (ids come from `uid()`; uniqueness per cell is the data
model's invariant). -/
theorem upsertEntry_occupied_confirm (form : FormState) (slots : List SlotDef)
    (entries : List Entry) (ex : Entry) (freshId : String) (now : Int)
    (hex : slotMapGet entries form.day form.slotId = some ex)
    (hcourse : form.courseId ≠ "") (hslots : slots ≠ [])
    (hinv : atMostOnePerDaySlot entries) (hids : entryIdsNodup entries) :
    upsertEntry form slots entries false freshId now = entries ∧
    (upsertEntry form slots entries true freshId now).filter
        (entryKeyMatches form.day form.slotId)
      = [{ id := ex.id, courseId := form.courseId, day := form.day,
           slotId := form.slotId, classType := form.classType,
           room := jsTrim form.room, professors := jsTrim form.professors,
           courseUrl := jsTrim form.courseUrl, createdAt := ex.createdAt }] := by
  have hlen : ¬slots.length = 0 := by
    simpa [List.length_eq_zero] using hslots
  obtain ⟨hmem, hday, hslot⟩ := slotMapGet_mem hex
  set newE : Entry :=
    { id := ex.id, courseId := form.courseId, day := form.day,
      slotId := form.slotId, classType := form.classType,
      room := jsTrim form.room, professors := jsTrim form.professors,
      courseUrl := jsTrim form.courseUrl, createdAt := ex.createdAt } with hnewE
  have hfold : ∀ b : Bool, upsertEntry form slots entries b freshId now
      = if b then entries.map (fun e => if e.id = ex.id then newE else e) else entries := by
    intro b
    simp only [upsertEntry, if_neg hcourse, if_neg hlen, hex]
  refine ⟨by rw [hfold]; rfl, ?_⟩
  rw [hfold]
  simp only [if_pos]
  rw [List.filter_map]
  have hcong : entries.filter
      ((entryKeyMatches form.day form.slotId) ∘ (fun e => if e.id = ex.id then newE else e))
      = entries.filter (entryKeyMatches form.day form.slotId) := by
    apply List.filter_congr
    intro e he
    by_cases hid : e.id = ex.id
    · have heq : e = ex := List.inj_on_of_nodup_map hids he hmem hid
      subst heq
      simp [hid, entryKeyMatches_iff, hday, hslot, hnewE, entryKeyMatches]
    · simp [hid]
  rw [hcong, filter_key_eq_singleton hinv hmem hday hslot]
  simp

/-- Witness for C1 at concrete fixtures. -/
theorem upsertEntry_occupied_confirm_witness :
    upsertEntry formFix slotsFix entriesFix false "f1" 9 = entriesFix ∧
    (upsertEntry formFix slotsFix entriesFix true "f1" 9).filter
        (entryKeyMatches formFix.day formFix.slotId)
      = [{ id := exFix.id, courseId := formFix.courseId, day := formFix.day,
           slotId := formFix.slotId, classType := formFix.classType,
           room := jsTrim formFix.room, professors := jsTrim formFix.professors,
           courseUrl := jsTrim formFix.courseUrl, createdAt := exFix.createdAt }] :=
  upsertEntry_occupied_confirm formFix slotsFix entriesFix exFix "f1" 9
    (by decide) (by decide) (by decide) (by decide) (by decide)

/-- C10: on a confirmed overwrite of an occupied cell, the replacement entry
keeps the replaced entry's `id` and `createdAt`; `courseId`, `classType` and
the (trimmed) `room`, `professors`, `courseUrl` come from the form. -/
theorem upsertEntry_replacement_keeps_id_createdAt (form : FormState)
    (slots : List SlotDef) (entries : List Entry) (ex : Entry)
    (freshId : String) (now : Int)
    (hex : slotMapGet entries form.day form.slotId = some ex)
    (hcourse : form.courseId ≠ "") (hslots : slots ≠ []) :
    ∃ e' : Entry,
      upsertEntry form slots entries true freshId now
        = entries.map (fun e => if e.id = ex.id then e' else e)
      ∧ e'.id = ex.id ∧ e'.createdAt = ex.createdAt
      ∧ e'.courseId = form.courseId ∧ e'.classType = form.classType
      ∧ e'.room = jsTrim form.room ∧ e'.professors = jsTrim form.professors
      ∧ e'.courseUrl = jsTrim form.courseUrl
      ∧ e'.day = form.day ∧ e'.slotId = form.slotId := by
  have hlen : ¬slots.length = 0 := by
    simpa [List.length_eq_zero] using hslots
  refine ⟨{ id := ex.id, courseId := form.courseId, day := form.day,
            slotId := form.slotId, classType := form.classType,
            room := jsTrim form.room, professors := jsTrim form.professors,
            courseUrl := jsTrim form.courseUrl, createdAt := ex.createdAt }, ?_,
          rfl, rfl, rfl, rfl, rfl, rfl, rfl, rfl, rfl⟩
  simp only [upsertEntry, if_neg hcourse, if_neg hlen, hex]
  simp

/-- Witness for C10 at concrete fixtures. -/
theorem upsertEntry_replacement_keeps_id_createdAt_witness :
    ∃ e' : Entry,
      upsertEntry formFix slotsFix entriesFix true "f1" 9
        = entriesFix.map (fun e => if e.id = exFix.id then e' else e)
      ∧ e'.id = exFix.id ∧ e'.createdAt = exFix.createdAt
      ∧ e'.courseId = formFix.courseId ∧ e'.classType = formFix.classType
      ∧ e'.room = jsTrim formFix.room ∧ e'.professors = jsTrim formFix.professors
      ∧ e'.courseUrl = jsTrim formFix.courseUrl
      ∧ e'.day = formFix.day ∧ e'.slotId = formFix.slotId :=
  upsertEntry_replacement_keeps_id_createdAt formFix slotsFix entriesFix exFix "f1" 9
    (by decide) (by decide) (by decide)

/-- C7: a confirmed slot deletion removes exactly the slots with the deleted
id and exactly the entries referencing it; a confirmed course deletion
removes exactly the courses with the deleted id and exactly the entries
referencing it.  The sublist conjuncts say the survivors are kept verbatim
and in order. -/
theorem delete_cascade_exact (slots : List SlotDef) (courses : List Course)
    (entries : List Entry) (sid cid : String) :
    (∀ s : SlotDef, s ∈ (deleteSlot true sid slots entries).1 ↔ s ∈ slots ∧ s.id ≠ sid)
    ∧ (∀ e : Entry, e ∈ (deleteSlot true sid slots entries).2 ↔ e ∈ entries ∧ e.slotId ≠ sid)
    ∧ (deleteSlot true sid slots entries).1.Sublist slots
    ∧ (deleteSlot true sid slots entries).2.Sublist entries
    ∧ (∀ c : Course, c ∈ (deleteCourse true cid courses entries).1 ↔ c ∈ courses ∧ c.id ≠ cid)
    ∧ (∀ e : Entry, e ∈ (deleteCourse true cid courses entries).2 ↔ e ∈ entries ∧ e.courseId ≠ cid)
    ∧ (deleteCourse true cid courses entries).1.Sublist courses
    ∧ (deleteCourse true cid courses entries).2.Sublist entries := by
  refine ⟨?_, ?_, ?_, ?_, ?_, ?_, ?_, ?_⟩ <;>
    simp [deleteSlot, deleteCourse, List.mem_filter, List.filter_sublist]

/-- C5: the three normalizers return the empty list on any non-array input;
on arrays they keep, in input order, exactly the elements accepted by the
per-element shape check; a list with one well-formed record and one record
missing a required field normalizes to just the well-formed record; records
with an invalid enum value or a malformed time string are discarded. -/
theorem normalize_discards_invalid :
    (∀ raw, isJsonArray raw = false →
      normalizeSlots raw = [] ∧ ∀ now, normalizeCourses now raw = [] ∧ normalizeEntries now raw = [])
    ∧ (∀ (now : Int) (xs : List Json),
        normalizeSlots (some (.arr xs)) = xs.filterMap slotOfJson
        ∧ normalizeCourses now (some (.arr xs)) = xs.filterMap (courseOfJson now)
        ∧ normalizeEntries now (some (.arr xs)) = xs.filterMap (entryOfJson now))
    ∧ (∀ (now : Int) (xs : List Json), (∀ x ∈ xs, entryOfJson now x = none) →
        normalizeEntries now (some (.arr xs)) = [])
    ∧ normalizeCourses 7 (some (.arr [sampleGoodCourseJson, sampleMissingTitleJson]))
        = [⟨"c1", "Βάσεις Δεδομένων", "Α1", "", "", 5⟩]
    ∧ normalizeEntries 7 (some (.arr [sampleBadDayEntryJson])) = []
    ∧ normalizeSlots (some (.arr [sampleBadTimeSlotJson])) = [] := by
  refine ⟨?_, fun _ _ => ⟨rfl, rfl, rfl⟩, ?_, by decide, by decide, by decide⟩
  · intro raw h
    match raw with
    | none => exact ⟨rfl, fun _ => ⟨rfl, rfl⟩⟩
    | some .null => exact ⟨rfl, fun _ => ⟨rfl, rfl⟩⟩
    | some (.bool _) => exact ⟨rfl, fun _ => ⟨rfl, rfl⟩⟩
    | some (.num _) => exact ⟨rfl, fun _ => ⟨rfl, rfl⟩⟩
    | some (.str _) => exact ⟨rfl, fun _ => ⟨rfl, rfl⟩⟩
    | some (.obj _) => exact ⟨rfl, fun _ => ⟨rfl, rfl⟩⟩
    | some (.arr _) => cases h
  · intro now xs h
    simpa [normalizeEntries] using List.filterMap_eq_nil_iff.mpr h

/-- Witness for C5's conditional conjuncts at concrete inputs. -/
theorem normalize_discards_invalid_witness :
    normalizeSlots (some (.str "oops")) = []
    ∧ normalizeEntries 3 (some (.arr [.str "nope"])) = [] :=
  ⟨(normalize_discards_invalid.1 (some (.str "oops")) rfl).1,
   normalize_discards_invalid.2.2.1 3 [.str "nope"] (by decide)⟩

/-! ### Export / import round trip -/

theorem slotOfJson_slotToJson {s : SlotDef} (hid : s.id ≠ "")
    (hs : isHHMM s.start = true) (he : isHHMM s.«end» = true) (hl : s.label ≠ "") :
    slotOfJson (slotToJson s) = some s := by
  show (if s.id == "" || !isHHMM s.start || !isHHMM s.«end» then none
        else some { id := s.id, start := s.start, «end» := s.«end»,
                    label := if s.label == "" then s.start ++ "–" ++ s.«end» else s.label })
      = some s
  simp [hid, hs, he, hl]

theorem courseOfJson_courseToJson {c : Course} (now : Int) (hid : c.id ≠ "")
    (ht : jsTrim c.title = c.title) (hne : c.title ≠ "") :
    courseOfJson now (courseToJson c) = some c := by
  show (if c.id == "" || jsTrim c.title == "" then none
        else some { id := c.id, title := jsTrim c.title, defaultRoom := c.defaultRoom,
                    defaultProfessors := c.defaultProfessors, courseUrl := c.courseUrl,
                    createdAt := c.createdAt })
      = some c
  rw [ht]
  simp [hid, hne]

theorem entryOfJson_entryToJson {e : Entry} (now : Int) (hid : e.id ≠ "")
    (hcid : e.courseId ≠ "") (hsid : e.slotId ≠ "") :
    entryOfJson now (entryToJson e) = some e := by
  obtain ⟨i, ci, d, si, ct, r, p, u, ca⟩ := e
  replace hid : i ≠ "" := hid
  replace hcid : ci ≠ "" := hcid
  replace hsid : si ≠ "" := hsid
  cases d <;> cases ct
  all_goals
    show (if i == "" || ci == "" || si == "" then none
          else some (Entry.mk i ci _ si _ r p u ca)) = some (Entry.mk i ci _ si _ r p u ca)
    simp [hid, hcid, hsid]

theorem normalizeSlots_roundtrip {slots : List SlotDef}
    (h : ∀ s ∈ slots, s.id ≠ "" ∧ isHHMM s.start = true ∧ isHHMM s.«end» = true ∧ s.label ≠ "") :
    normalizeSlots (some (.arr (slots.map slotToJson))) = slots := by
  show (slots.map slotToJson).filterMap slotOfJson = slots
  rw [List.filterMap_map,
      List.filterMap_congr (fun s hs => by
        obtain ⟨h1, h2, h3, h4⟩ := h s hs
        exact slotOfJson_slotToJson h1 h2 h3 h4),
      List.filterMap_some]

theorem normalizeCourses_roundtrip {courses : List Course} (now : Int)
    (h : ∀ c ∈ courses, c.id ≠ "" ∧ jsTrim c.title = c.title ∧ c.title ≠ "") :
    normalizeCourses now (some (.arr (courses.map courseToJson))) = courses := by
  show (courses.map courseToJson).filterMap (courseOfJson now) = courses
  rw [List.filterMap_map,
      List.filterMap_congr (fun c hc => by
        obtain ⟨h1, h2, h3⟩ := h c hc
        exact courseOfJson_courseToJson now h1 h2 h3),
      List.filterMap_some]

theorem normalizeEntries_roundtrip {entries : List Entry} (now : Int)
    (h : ∀ e ∈ entries, e.id ≠ "" ∧ e.courseId ≠ "" ∧ e.slotId ≠ "") :
    normalizeEntries now (some (.arr (entries.map entryToJson))) = entries := by
  show (entries.map entryToJson).filterMap (entryOfJson now) = entries
  rw [List.filterMap_map,
      List.filterMap_congr (fun e he => by
        obtain ⟨h1, h2, h3⟩ := h e he
        exact entryOfJson_entryToJson now h1 h2 h3),
      List.filterMap_some]

/-- C2 (amended): exporting a state whose slots have non-empty ids, `HH:MM`
times and non-empty labels, whose courses have non-empty ids and
already-trimmed non-empty titles, whose entries have non-empty ids,
courseIds and slotIds, and which has at least one slot, then re-importing
the produced document's embedded backup with the prompt confirmed, yields
slots and courses identical to the originals and entries identical to the
originals after dropping those whose `slotId` or `courseId` is absent; the
round trip is the identity on entries when nothing is pruned. -/
theorem export_import_roundtrip (slots : List SlotDef) (courses : List Course)
    (entries : List Entry) (theme : Theme) (skin : ExportSkin)
    (st : StoredState) (now exportedAt : Int) (fmt : Int → String)
    (hslot : ∀ s ∈ slots, s.id ≠ "" ∧ isHHMM s.start = true ∧ isHHMM s.«end» = true ∧ s.label ≠ "")
    (hcourse : ∀ c ∈ courses, c.id ≠ "" ∧ jsTrim c.title = c.title ∧ c.title ≠ "")
    (hentry : ∀ e ∈ entries, e.id ≠ "" ∧ e.courseId ≠ "" ∧ e.slotId ≠ "")
    (hne : slots ≠ []) :
    (restoreFromHtmlFile (.parsed (buildExportBackup slots courses entries theme skin exportedAt))
        true st now fmt).replaced = true
    ∧ (restoreFromHtmlFile (.parsed (buildExportBackup slots courses entries theme skin exportedAt))
        true st now fmt).st.slots = slots
    ∧ (restoreFromHtmlFile (.parsed (buildExportBackup slots courses entries theme skin exportedAt))
        true st now fmt).st.courses = courses
    ∧ (restoreFromHtmlFile (.parsed (buildExportBackup slots courses entries theme skin exportedAt))
        true st now fmt).st.entries = entries.filter (fun e =>
          (slots.map SlotDef.id).contains e.slotId && (courses.map Course.id).contains e.courseId)
    ∧ ((∀ e ∈ entries, (slots.map SlotDef.id).contains e.slotId = true
          ∧ (courses.map Course.id).contains e.courseId = true) →
        (restoreFromHtmlFile (.parsed (buildExportBackup slots courses entries theme skin exportedAt))
          true st now fmt).st.entries = entries) := by
  have hS := normalizeSlots_roundtrip hslot
  have hC := normalizeCourses_roundtrip now hcourse
  have hE := normalizeEntries_roundtrip now hentry
  have hlen : ¬(slots.length = 0) := by simp [List.length_eq_zero, hne]
  have hred : ∀ (t : Theme) (k : ExportSkin),
      restoreFromHtmlFile (.parsed (buildExportBackup slots courses entries t k exportedAt))
          true st now fmt
        = if (normalizeSlots (some (.arr (slots.map slotToJson)))).length = 0 then
            ⟨{ st with theme := t, exportSkin := k }, false,
             some "Το backup δεν έχει sessions/ώρες. Δεν μπορεί να γίνει επαναφορά.", none⟩
          else
            ⟨⟨normalizeSlots (some (.arr (slots.map slotToJson))),
              normalizeCourses now (some (.arr (courses.map courseToJson))),
              (normalizeEntries now (some (.arr (entries.map entryToJson)))).filter
                (fun e =>
                  ((normalizeSlots (some (.arr (slots.map slotToJson)))).map SlotDef.id).contains e.slotId
                    && ((normalizeCourses now (some (.arr (courses.map courseToJson)))).map Course.id).contains e.courseId),
              t, k⟩, true, none,
             some ("Θα γίνει ΕΠΑΝΑΦΟΡΑ από HTML backup.\n\nΗμερομηνία export: "
               ++ fmt exportedAt ++ "\n\nΘες να αντικατασταθούν τα τωρινά δεδομένα;")⟩ := by
    intro t k
    cases t <;> cases k <;> rfl
  rw [hred theme skin, hS, hC, hE, if_neg hlen]
  refine ⟨rfl, rfl, rfl, rfl, fun h => ?_⟩
  show entries.filter _ = entries
  refine List.filter_eq_self.mpr (fun e he => ?_)
  have := h e he
  show (_ && _) = true
  rw [Bool.and_eq_true]
  exact this

/-- C2 counterexample: the state with the single slot
`{id := "s1", start := "09:00", end := "11:00", label := ""}` (and no
courses or entries) satisfies the claim's stated hypotheses — non-empty slot
id, `HH:MM` times, every course title trimmed non-empty (vacuously) — yet
the confirmed round trip returns a different slot list: the empty label
comes back defaulted to `"09:00–11:00"`. -/
theorem export_import_roundtrip_cx :
    (slotNoLabel.id ≠ "" ∧ isHHMM slotNoLabel.start = true ∧ isHHMM slotNoLabel.«end» = true)
    ∧ (restoreFromHtmlFile (.parsed (buildExportBackup [slotNoLabel] [] [] .dark .default 0))
        true stEmpty 5 (fun _ => "t")).replaced = true
    ∧ (restoreFromHtmlFile (.parsed (buildExportBackup [slotNoLabel] [] [] .dark .default 0))
        true stEmpty 5 (fun _ => "t")).st.slots ≠ [slotNoLabel] := by
  refine ⟨by decide, by decide, by decide⟩

/-- Witness for C2 at a concrete valid state. -/
theorem export_import_roundtrip_witness :
    (restoreFromHtmlFile (.parsed (buildExportBackup slotsFix [courseFix] entriesFix .dark .default 123))
        true stEmpty 5 (fun _ => "t")).replaced = true
    ∧ (restoreFromHtmlFile (.parsed (buildExportBackup slotsFix [courseFix] entriesFix .dark .default 123))
        true stEmpty 5 (fun _ => "t")).st.slots = slotsFix
    ∧ (restoreFromHtmlFile (.parsed (buildExportBackup slotsFix [courseFix] entriesFix .dark .default 123))
        true stEmpty 5 (fun _ => "t")).st.courses = [courseFix]
    ∧ (restoreFromHtmlFile (.parsed (buildExportBackup slotsFix [courseFix] entriesFix .dark .default 123))
        true stEmpty 5 (fun _ => "t")).st.entries = entriesFix.filter (fun e =>
          (slotsFix.map SlotDef.id).contains e.slotId && ([courseFix].map Course.id).contains e.courseId) := by
  have h := export_import_roundtrip slotsFix [courseFix] entriesFix .dark .default stEmpty 5 123
    (fun _ => "t") (by decide) (by decide) (by decide) (by decide)
  exact ⟨h.1, h.2.1, h.2.2.1, h.2.2.2.1⟩

/-! ### Invariant preservation -/

theorem slotMapGet_eq_none {es : List Entry} {d : Day} {s : String}
    (h : slotMapGet es d s = none) : ∀ e ∈ es, ¬(e.day = d ∧ e.slotId = s) := by
  intro e he hk
  exact List.find?_eq_none.mp h e (List.mem_reverse.mpr he) (entryKeyMatches_iff.mpr hk)

/-- C3 (amended): the purely local mutations — entry upsert (given the app's
unique-id invariant), entry deletion, slot deletion, course deletion —
preserve the at-most-one-entry-per-`(day, slotId)` invariant; backup import
and cloud hydration preserve it only under the additional assumption that
the payload's own normalized entries satisfy it (true of the app's own
exports, not of arbitrary files). -/
theorem entries_key_invariant_preservation :
    (∀ (form : FormState) (slots : List SlotDef) (entries : List Entry) (b : Bool)
        (freshId : String) (now : Int), entryIdsNodup entries → atMostOnePerDaySlot entries →
        atMostOnePerDaySlot (upsertEntry form slots entries b freshId now))
    ∧ (∀ (id : String) (entries : List Entry), atMostOnePerDaySlot entries →
        atMostOnePerDaySlot (removeEntry id entries))
    ∧ (∀ (b : Bool) (id : String) (slots : List SlotDef) (entries : List Entry),
        atMostOnePerDaySlot entries → atMostOnePerDaySlot (deleteSlot b id slots entries).2)
    ∧ (∀ (b : Bool) (id : String) (courses : List Course) (entries : List Entry),
        atMostOnePerDaySlot entries → atMostOnePerDaySlot (deleteCourse b id courses entries).2)
    ∧ (∀ (ext : ExtractResult) (b : Bool) (st : StoredState) (now : Int) (fmt : Int → String),
        atMostOnePerDaySlot st.entries →
        (∀ backup, ext = .parsed backup →
          atMostOnePerDaySlot (normalizeEntries now
            ((backup.getField "data").bind (fun d => d.getField "entries")))) →
        atMostOnePerDaySlot (restoreFromHtmlFile ext b st now fmt).st.entries)
    ∧ (∀ (payload : Option Json) (now : Int) (st : StoredState),
        atMostOnePerDaySlot st.entries →
        atMostOnePerDaySlot (normalizeEntries now (payload.bind (fun d => d.getField "entries"))) →
        atMostOnePerDaySlot (applyPayload payload now st).entries) := by
  have hfilter : ∀ (p : Entry → Bool) (es : List Entry), atMostOnePerDaySlot es →
      atMostOnePerDaySlot (es.filter p) := fun p es h =>
    List.Pairwise.sublist (List.filter_sublist es) h
  refine ⟨?_, ?_, ?_, ?_, ?_, ?_⟩
  · intro form slots entries b freshId now hids hinv
    by_cases hc1 : form.courseId = ""
    · simpa [upsertEntry, hc1] using hinv
    by_cases hc2 : slots.length = 0
    · simpa [upsertEntry, hc1, hc2] using hinv
    rcases hget : slotMapGet entries form.day form.slotId with _ | ex
    · simp only [upsertEntry, if_neg hc1, if_neg hc2, hget]
      have hnone := slotMapGet_eq_none hget
      refine List.pairwise_append.mpr ⟨hinv, List.pairwise_singleton _ _, ?_⟩
      intro a ha b hb
      have hb' : b =
          { id := freshId, courseId := form.courseId, day := form.day,
            slotId := form.slotId, classType := form.classType,
            room := jsTrim form.room, professors := jsTrim form.professors,
            courseUrl := jsTrim form.courseUrl, createdAt := now } := by
        simpa using hb
      rw [hb']
      intro hk
      exact hnone a ha hk
    · obtain ⟨hmem, hday, hslot⟩ := slotMapGet_mem hget
      cases b
      · simpa [upsertEntry, hc1, hc2, hget] using hinv
      · simp only [upsertEntry, if_neg hc1, if_neg hc2, hget, if_pos]
        set newE : Entry :=
          { id := ex.id, courseId := form.courseId, day := form.day,
            slotId := form.slotId, classType := form.classType,
            room := jsTrim form.room, professors := jsTrim form.professors,
            courseUrl := jsTrim form.courseUrl, createdAt := ex.createdAt } with hnE
        have hkeys : ∀ e ∈ entries,
            (if e.id = ex.id then newE else e).day = e.day
            ∧ (if e.id = ex.id then newE else e).slotId = e.slotId := by
          intro e he
          by_cases hid : e.id = ex.id
          · have heq : e = ex := List.inj_on_of_nodup_map hids he hmem hid
            rw [heq]
            simp [hnE, hday, hslot]
          · simp [hid]
        refine List.pairwise_map.mpr (List.Pairwise.imp_of_mem ?_ hinv)
        intro a b ha hb hR hk
        obtain ⟨hda, hsa⟩ := hkeys a ha
        obtain ⟨hdb, hsb⟩ := hkeys b hb
        exact hR ⟨hda ▸ hdb ▸ hk.1, hsa ▸ hsb ▸ hk.2⟩
  · intro id entries hinv
    exact hfilter _ _ hinv
  · intro b id slots entries hinv
    cases b
    · simpa [deleteSlot] using hinv
    · simpa [deleteSlot] using hfilter _ _ hinv
  · intro b id courses entries hinv
    cases b
    · simpa [deleteCourse] using hinv
    · simpa [deleteCourse] using hfilter _ _ hinv
  · intro ext b st now fmt hinv hpay
    rcases ext with _ | _ | _ | backup
    · exact hinv
    · exact hinv
    · exact hinv
    · have hpay' := hpay backup rfl
      simp only [restoreFromHtmlFile]
      split
      · exact hinv
      · split
        · exact hinv
        · split
          · exact hfilter _ _ hpay'
          · exact hinv
  · intro payload now st hinv hpay
    simp only [applyPayload]
    split
    · exact hfilter _ _ hpay
    · exact hinv

/-- C3 counterexample: the backup-import operation does not preserve the
invariant — importing an app-tagged document whose data carries two valid
entries for the same `(Mon, 09-11)` cell stores both. -/
theorem entries_key_invariant_preservation_cx :
    atMostOnePerDaySlot stEmpty.entries
    ∧ ¬ atMostOnePerDaySlot
        ((restoreFromHtmlFile (.parsed dupKeyBackupJson) true stEmpty 0 (fun _ => "t")).st.entries) := by
  constructor
  · decide
  · decide

/-- Witness for C3's conditional conjuncts at concrete inputs. -/
theorem entries_key_invariant_preservation_witness :
    atMostOnePerDaySlot (removeEntry "e1" entriesFix)
    ∧ atMostOnePerDaySlot (upsertEntry formFix slotsFix entriesFix true "f9" 11) :=
  ⟨entries_key_invariant_preservation.2.1 "e1" entriesFix (by decide),
   entries_key_invariant_preservation.1 formFix slotsFix entriesFix true "f9" 11
     (by decide) (by decide)⟩

/-! ### Backup import acceptance -/

/-- C4 (amended): the import replaces the stored collections if and only if
the script was found with non-empty, JSON-parseable text, the parsed value
is truthy with the matching `app` tag, it has a truthy `data` field whose
normalized slots are non-empty, and the user confirms.  Whenever it does not
replace, the stored slots/courses/entries are unchanged, and either a
descriptive failure was alerted or (exactly in the declined case) the
confirmation prompt was shown and no failure is reported.  When the prompt
is shown and the backup records a numeric `exportedAt`, the prompt surfaces
its formatted value. -/
theorem restore_replace_iff (ext : ExtractResult) (confirm : Bool)
    (st : StoredState) (now : Int) (fmt : Int → String) :
    ((restoreFromHtmlFile ext confirm st now fmt).replaced = true ↔
      ∃ backup, ext = .parsed backup ∧ backup.truthy = true ∧ appTagOk backup = true
        ∧ dataFieldTruthy backup = true
        ∧ (normalizeSlots ((backup.getField "data").bind (fun d => d.getField "slots"))).length ≠ 0
        ∧ confirm = true)
    ∧ ((restoreFromHtmlFile ext confirm st now fmt).replaced = false →
        (restoreFromHtmlFile ext confirm st now fmt).st.slots = st.slots
        ∧ (restoreFromHtmlFile ext confirm st now fmt).st.courses = st.courses
        ∧ (restoreFromHtmlFile ext confirm st now fmt).st.entries = st.entries)
    ∧ ((restoreFromHtmlFile ext confirm st now fmt).replaced = false →
        ((restoreFromHtmlFile ext confirm st now fmt).failure.isSome = true
          ∨ ((restoreFromHtmlFile ext confirm st now fmt).prompt.isSome = true ∧ confirm = false
             ∧ (restoreFromHtmlFile ext confirm st now fmt).failure = none)))
    ∧ (∀ (backup : Json) (n : Int), ext = .parsed backup →
        backup.getField "exportedAt" = some (.num n) →
        (restoreFromHtmlFile ext confirm st now fmt).prompt.isSome = true →
        (restoreFromHtmlFile ext confirm st now fmt).prompt
          = some ("Θα γίνει ΕΠΑΝΑΦΟΡΑ από HTML backup.\n\nΗμερομηνία export: " ++ fmt n
              ++ "\n\nΘες να αντικατασταθούν τα τωρινά δεδομένα;")) := by
  rcases ext with _ | _ | _ | backup
  · exact ⟨by simp [restoreFromHtmlFile], fun _ => ⟨rfl, rfl, rfl⟩,
      fun _ => Or.inl rfl, fun _ _ h => by cases h⟩
  · exact ⟨by simp [restoreFromHtmlFile], fun _ => ⟨rfl, rfl, rfl⟩,
      fun _ => Or.inl rfl, fun _ _ h => by cases h⟩
  · exact ⟨by simp [restoreFromHtmlFile], fun _ => ⟨rfl, rfl, rfl⟩,
      fun _ => Or.inl rfl, fun _ _ h => by cases h⟩
  by_cases hg : (!backup.truthy || !appTagOk backup || !dataFieldTruthy backup) = true
  · have hout : restoreFromHtmlFile (.parsed backup) confirm st now fmt
        = ⟨st, false, some "Το HTML δεν φαίνεται να είναι σωστό export της εφαρμογής.", none⟩ := by
      simp only [restoreFromHtmlFile, if_pos hg]
    rw [hout]
    refine ⟨?_, fun _ => ⟨rfl, rfl, rfl⟩, fun _ => Or.inl rfl, fun _ _ _ _ h => by cases h⟩
    apply iff_of_false (by simp)
    rintro ⟨b', hbeq, ht, ha, hd, _, _⟩
    injection hbeq with h
    subst h
    rw [ht, ha, hd] at hg
    simp at hg
  · have hg' : (!backup.truthy || !appTagOk backup || !dataFieldTruthy backup) = false :=
      Bool.eq_false_iff.mpr hg
    obtain ⟨⟨ht, ha⟩, hd⟩ : (backup.truthy = true ∧ appTagOk backup = true)
        ∧ dataFieldTruthy backup = true := by
      simpa [Bool.or_eq_false_iff] using hg'
    by_cases hlen : (normalizeSlots ((backup.getField "data").bind
        (fun d => d.getField "slots"))).length = 0
    · refine ⟨?_, ?_, ?_, ?_⟩ <;>
        simp only [restoreFromHtmlFile, if_neg hg, if_pos hlen]
      · apply iff_of_false (by simp)
        rintro ⟨b', hbeq, _, _, _, hn, _⟩
        injection hbeq with h
        subst h
        exact hn hlen
      · exact fun _ => ⟨trivial, trivial, trivial⟩
      · exact fun _ => Or.inl (by trivial)
      · exact fun _ _ _ _ h => by cases h
    · cases confirm
      · refine ⟨?_, ?_, ?_, ?_⟩ <;>
          simp only [restoreFromHtmlFile, if_neg hg, if_neg hlen, Bool.false_eq_true,
            if_false]
        · apply iff_of_false (by simp)
          rintro ⟨b', hbeq, _, _, _, _, hc⟩
          cases hc
        · exact fun _ => ⟨trivial, trivial, trivial⟩
        · exact fun _ => Or.inr ⟨by trivial, by trivial, by trivial⟩
        · rintro b' n hbeq hnum _
          injection hbeq with h
          subst h
          rw [hnum]
      · refine ⟨?_, ?_, ?_, ?_⟩ <;>
          simp only [restoreFromHtmlFile, if_neg hg, if_neg hlen, if_true]
        · exact iff_of_true trivial ⟨backup, rfl, ht, ha, hd, hlen, trivial⟩
        · exact fun h => by cases h
        · exact fun h => by cases h
        · rintro b' n hbeq hnum _
          injection hbeq with h
          subst h
          rw [hnum]

/-- C4 counterexample: a parsed backup whose `app` tag matches, imported
with the confirmation granted — all the conditions the claim lists — yet
the import rejects (it additionally requires a `data` field with non-empty
normalized slots) and leaves the state unchanged; and for a well-formed
backup a declined confirmation rejects without reporting any failure,
contradicting the claim's "descriptive failure in every declined case". -/
theorem restore_replace_iff_cx :
    appTagOk noDataBackupJson = true
    ∧ (restoreFromHtmlFile (.parsed noDataBackupJson) true stFix 0 (fun _ => "σήμερα")).replaced = false
    ∧ (restoreFromHtmlFile (.parsed noDataBackupJson) true stFix 0 (fun _ => "σήμερα")).st = stFix
    ∧ (restoreFromHtmlFile (.parsed dupKeyBackupJson) false stFix 0 (fun _ => "σήμερα")).replaced = false
    ∧ (restoreFromHtmlFile (.parsed dupKeyBackupJson) false stFix 0 (fun _ => "σήμερα")).failure = none
    ∧ (restoreFromHtmlFile (.parsed dupKeyBackupJson) false stFix 0 (fun _ => "σήμερα")).prompt.isSome = true := by
  refine ⟨by decide, by decide, by decide, by decide, by decide, by decide⟩

/-- Witness for C4 at concrete inputs. -/
theorem restore_replace_iff_witness :
    (restoreFromHtmlFile .noScript true stFix 0 (fun _ => "t")).st.slots = stFix.slots
    ∧ ((restoreFromHtmlFile .noScript true stFix 0 (fun _ => "t")).failure.isSome = true
        ∨ ((restoreFromHtmlFile .noScript true stFix 0 (fun _ => "t")).prompt.isSome = true
           ∧ true = false
           ∧ (restoreFromHtmlFile .noScript true stFix 0 (fun _ => "t")).failure = none)) :=
  ⟨((restore_replace_iff .noScript true stFix 0 (fun _ => "t")).2.1 rfl).1,
   (restore_replace_iff .noScript true stFix 0 (fun _ => "t")).2.2.1 rfl⟩


/-! ### Grouping order -/

/-- C9: in the group-by-course view every group's sessions are sorted by
weekday index (fixed Mon–Fri order) and then by the slot's position in the
configured slot sequence, and the groups are sorted by course title under
the (modelled) Greek collation; concretely, "Αβγό" is placed before
"Άτομο" although the code-point (byte-wise) comparison of the two titles
orders them the other way round. -/
theorem groupByCourse_ordering (entries : List Entry) (courses : List Course)
    (slots : List SlotDef) :
    (∀ g ∈ groupByCourse entries courses slots, List.Sorted (sessionLE slots) g.sessions)
    ∧ List.Sorted groupLE (groupByCourse entries courses slots)
    ∧ (groupByCourse [entryAccent, entryAlpha] [courseAlpha, courseAccent] slotsFix).map
        (fun g => g.course.title) = ["Αβγό", "Άτομο"]
    ∧ "Άτομο".data < "Αβγό".data := by
  refine ⟨?_, List.sorted_insertionSort groupLE _, by decide, by decide⟩
  intro g hg
  simp only [groupByCourse] at hg
  have hg2 : g ∈ ((groupEntries entries courses).map Prod.snd).map
      (fun g => ({ course := g.course,
                   sessions := List.insertionSort (sessionLE slots) g.sessions } : CourseGroup)) :=
    (List.perm_insertionSort groupLE _).mem_iff.mp hg
  obtain ⟨g0, _, rfl⟩ := List.mem_map.mp hg2
  exact List.sorted_insertionSort (sessionLE slots) g0.sessions


/-! ### Legacy migration properties -/

theorem legacyStepBody_coursesMap_extend (uids : Nat → String) (now : Int)
    (acc : LegacyAcc) (x : Json) :
    ∃ l, (legacyStepBody uids now acc x).coursesMap = acc.coursesMap ++ l := by
  simp only [legacyStepBody]
  split
  · exact ⟨[], (List.append_nil _).symm⟩
  split
  · exact ⟨[], (List.append_nil _).symm⟩
  split
  · exact ⟨[], (List.append_nil _).symm⟩
  · exact ⟨_, rfl⟩

theorem legacyStep_coursesMap_extend (uids : Nat → String) (now : Int)
    (acc : LegacyAcc) (x : Json) :
    ∃ l, (legacyStep uids now acc x).coursesMap = acc.coursesMap ++ l := by
  rcases x with _ | b | n | s | es | fs
  · exact ⟨[], (List.append_nil _).symm⟩
  · exact ⟨[], (List.append_nil _).symm⟩
  · exact ⟨[], (List.append_nil _).symm⟩
  · exact ⟨[], (List.append_nil _).symm⟩
  · exact legacyStepBody_coursesMap_extend uids now acc _
  · exact legacyStepBody_coursesMap_extend uids now acc _

theorem legacyStepBody_inv (uids : Nat → String) (now : Int) {acc : LegacyAcc} (x : Json)
    (h : legacyAccInv acc) : legacyAccInv (legacyStepBody uids now acc x) := by
  obtain ⟨h1, h2, h3⟩ := h
  simp only [legacyStepBody]
  split
  · exact ⟨h1, h2, h3⟩
  split
  · exact ⟨h1, h2, h3⟩
  split
  · next p hfind =>
    refine ⟨h1, h2, fun e he => ?_⟩
    rcases List.mem_append.mp he with he' | he'
    · exact h3 e he'
    · refine ⟨p, List.mem_of_find?_eq_some hfind, ?_⟩
      rcases List.mem_singleton.mp he' with rfl
      rfl
  · next hfind =>
    have hnotin : ∀ q ∈ acc.coursesMap, q.2.title ≠ jsTrim (strOr (x.getField "title")) := by
      intro q hq
      rw [← h2 q hq]
      have := List.find?_eq_none.mp hfind q hq
      simpa using this
    refine ⟨?_, ?_, ?_⟩
    · rw [List.map_append]
      refine (List.nodup_append).mpr ⟨h1, List.nodup_singleton _, ?_⟩
      intro t ht ht'
      obtain ⟨q, hq, hqt⟩ := List.mem_map.mp ht
      have ht2 : t = jsTrim (strOr (x.getField "title")) := by simpa using ht'
      exact hnotin q hq (hqt.trans ht2)
    · intro q hq
      rcases List.mem_append.mp hq with hq' | hq'
      · exact h2 q hq'
      · rcases List.mem_singleton.mp hq' with rfl
        rfl
    · intro e he
      rcases List.mem_append.mp he with he' | he'
      · obtain ⟨q, hq, hid⟩ := h3 e he'
        exact ⟨q, List.mem_append_left _ hq, hid⟩
      · rcases List.mem_singleton.mp he' with rfl
        exact ⟨_, List.mem_append_right _ (List.mem_singleton_self _), rfl⟩

theorem legacyStep_inv (uids : Nat → String) (now : Int) {acc : LegacyAcc} (x : Json)
    (h : legacyAccInv acc) : legacyAccInv (legacyStep uids now acc x) := by
  rcases x with _ | b | n | s | es | fs
  · exact h
  · exact h
  · exact h
  · exact h
  · exact legacyStepBody_inv uids now _ h
  · exact legacyStepBody_inv uids now _ h

theorem legacyStep_titles_mono (uids : Nat → String) (now : Int)
    (acc : LegacyAcc) (x : Json) {t : String}
    (h : t ∈ acc.coursesMap.map (fun p => p.2.title)) :
    t ∈ (legacyStep uids now acc x).coursesMap.map (fun p => p.2.title) := by
  obtain ⟨l, hl⟩ := legacyStep_coursesMap_extend uids now acc x
  rw [hl, List.map_append]
  exact List.mem_append_left _ h

theorem legacyStepBody_captures (uids : Nat → String) (now : Int)
    (acc : LegacyAcc) (x : Json) {t : String}
    (hkeys : ∀ p ∈ acc.coursesMap, p.1 = p.2.title)
    (hx : legacyValidTitleBody x = some t) :
    t ∈ (legacyStepBody uids now acc x).coursesMap.map (fun p => p.2.title) := by
  revert hx
  simp only [legacyValidTitleBody, legacyStepBody]
  split
  · exact fun hx => absurd hx (by simp)
  split
  · exact fun hx => absurd hx (by simp)
  split
  · next p hfind =>
    intro hx
    obtain rfl : jsTrim (strOr (x.getField "title")) = t := by simpa using hx
    have hp := List.mem_of_find?_eq_some hfind
    refine List.mem_map.mpr ⟨p, hp, ?_⟩
    have : p.1 = jsTrim (strOr (x.getField "title")) := by
      simpa using List.find?_some hfind
    rw [← hkeys p hp, this]
  · intro hx
    obtain rfl : jsTrim (strOr (x.getField "title")) = t := by simpa using hx
    rw [List.map_append]
    exact List.mem_append_right _ (by simp)

theorem legacyStep_captures (uids : Nat → String) (now : Int)
    (acc : LegacyAcc) (x : Json) {t : String}
    (hkeys : ∀ p ∈ acc.coursesMap, p.1 = p.2.title)
    (hx : legacyValidTitle x = some t) :
    t ∈ (legacyStep uids now acc x).coursesMap.map (fun p => p.2.title) := by
  rcases x with _ | b | n | s | es | fs
  · exact absurd hx (by simp [legacyValidTitle])
  · exact absurd hx (by simp [legacyValidTitle])
  · exact absurd hx (by simp [legacyValidTitle])
  · exact absurd hx (by simp [legacyValidTitle])
  · exact legacyStepBody_captures uids now acc _ hkeys hx
  · exact legacyStepBody_captures uids now acc _ hkeys hx

theorem legacyFold_inv (uids : Nat → String) (now : Int) (xs : List Json) :
    ∀ acc, legacyAccInv acc → legacyAccInv (xs.foldl (legacyStep uids now) acc) := by
  induction xs with
  | nil => exact fun acc h => h
  | cons y ys ih => exact fun acc h => ih _ (legacyStep_inv uids now y h)

theorem legacyFold_titles_mono (uids : Nat → String) (now : Int) (xs : List Json) :
    ∀ acc {t : String}, t ∈ acc.coursesMap.map (fun p => p.2.title) →
      t ∈ (xs.foldl (legacyStep uids now) acc).coursesMap.map (fun p => p.2.title) := by
  induction xs with
  | nil => exact fun acc _ h => h
  | cons y ys ih => exact fun acc _ h => ih _ (legacyStep_titles_mono uids now acc y h)

theorem legacyFold_captures (uids : Nat → String) (now : Int) (xs : List Json) :
    ∀ acc {x : Json} {t : String}, x ∈ xs → legacyValidTitle x = some t → legacyAccInv acc →
      t ∈ (xs.foldl (legacyStep uids now) acc).coursesMap.map (fun p => p.2.title) := by
  induction xs with
  | nil => exact fun acc _ _ hx _ _ => absurd hx (List.not_mem_nil _)
  | cons y ys ih =>
      intro acc x t hx ht hinv
      rcases List.mem_cons.mp hx with rfl | hx'
      · exact legacyFold_titles_mono uids now ys _
          (legacyStep_captures uids now acc x hinv.2.1 ht)
      · exact ih _ hx' ht (legacyStep_inv uids now y hinv)

theorem migrateScan_skip (uids : Nat → String) (now : Int) (slots : List SlotDef)
    (rest : List (Option (Option Json))) (xs : List Json) :
    ∀ pre, (∀ o ∈ pre, legacySkippable o) →
      migrateScan uids now slots (pre ++ some (some (.arr xs)) :: rest)
        = deriveLegacy uids now slots xs := by
  intro pre
  induction pre with
  | nil => exact fun _ => rfl
  | cons o pre' ih =>
      intro h
      have ho := h o (List.mem_cons_self o pre')
      have h' := fun o' ho' => h o' (List.mem_cons_of_mem o ho')
      match o, ho with
      | none, _ => exact ih h'
      | some none, _ => exact ih h'
      | some (some .null), _ => exact ih h'
      | some (some (.bool b)), _ => exact ih h'
      | some (some (.num n)), _ => exact ih h'
      | some (some (.str s)), _ => exact ih h'
      | some (some (.obj fs)), _ => exact ih h'

/-- C8: migration returns the existing collections unchanged as soon as
either is non-empty; with both empty it skips unusable legacy keys in order
and derives from the first key that parsed to an array, consulting no
further keys; the derivation yields at most one course per distinct trimmed
title and a course for every valid record's trimmed title, keeps only
entries whose slotId is configured, links every kept entry to a derived
course, and — concretely — two same-titled records yield one course with
the first record's room/professors/courseUrl while a record with an
unconfigured slot is dropped. -/
theorem migrateLegacy_behavior :
    (∀ (c : Course) (cs : List Course) (es : List Entry) (slots : List SlotDef)
        (leg : List (Option (Option Json))) (uids : Nat → String) (now : Int),
        migrateLegacyIfNeeded (c :: cs) es slots leg uids now = (c :: cs, es))
    ∧ (∀ (cs : List Course) (e : Entry) (es : List Entry) (slots : List SlotDef)
        (leg : List (Option (Option Json))) (uids : Nat → String) (now : Int),
        migrateLegacyIfNeeded cs (e :: es) slots leg uids now = (cs, e :: es))
    ∧ (∀ (slots : List SlotDef) (uids : Nat → String) (now : Int)
        (pre rest : List (Option (Option Json))) (xs : List Json),
        (∀ o ∈ pre, legacySkippable o) →
        migrateLegacyIfNeeded [] [] slots (pre ++ some (some (.arr xs)) :: rest) uids now
          = deriveLegacy uids now slots xs)
    ∧ (∀ (slots : List SlotDef) (uids : Nat → String) (now : Int) (xs : List Json),
        ((deriveLegacy uids now slots xs).1.map Course.title).Nodup
        ∧ (∀ e ∈ (deriveLegacy uids now slots xs).2,
            (slots.map SlotDef.id).contains e.slotId = true)
        ∧ (∀ e ∈ (deriveLegacy uids now slots xs).2,
            ∃ c ∈ (deriveLegacy uids now slots xs).1, c.id = e.courseId)
        ∧ (∀ x ∈ xs, ∀ t, legacyValidTitle x = some t →
            t ∈ (deriveLegacy uids now slots xs).1.map Course.title))
    ∧ deriveLegacy uidsFix 7 slotsFix [legacyRecA, legacyRecB, legacyRecC]
        = ([⟨"u0", "Φυσική", "Ρ1", "Καθ. Α", "http://a", 7⟩, ⟨"u2", "Χημεία", "", "", "", 7⟩],
           [⟨"L1", "u0", .Mon, "09-11", .THEORY, "Ρ1", "Καθ. Α", "http://a", 7⟩,
            ⟨"u1", "u0", .Tue, "09-11", .THEORY, "Ρ2", "", "", 7⟩]) := by
  refine ⟨?_, ?_, ?_, ?_, by decide⟩
  · intro c cs es slots leg uids now
    simp [migrateLegacyIfNeeded]
  · intro cs e es slots leg uids now
    simp [migrateLegacyIfNeeded]
  · intro slots uids now pre rest xs hpre
    have : ¬(0 < ([] : List Course).length ∨ 0 < ([] : List Entry).length) := by simp
    rw [migrateLegacyIfNeeded, if_neg this]
    exact migrateScan_skip uids now slots rest xs pre hpre
  · intro slots uids now xs
    have hinv : legacyAccInv (xs.foldl (legacyStep uids now) ⟨0, [], []⟩) :=
      legacyFold_inv uids now xs _ ⟨List.nodup_nil, by simp, by simp⟩
    obtain ⟨h1, h2, h3⟩ := hinv
    have hperm : List.Perm
        (List.insertionSort (fun a b => localeCompareLE a.title b.title)
          ((xs.foldl (legacyStep uids now) ⟨0, [], []⟩).coursesMap.map Prod.snd))
        ((xs.foldl (legacyStep uids now) ⟨0, [], []⟩).coursesMap.map Prod.snd) :=
      List.perm_insertionSort _ _
    have htitles : ∀ {t : String},
        t ∈ ((xs.foldl (legacyStep uids now) ⟨0, [], []⟩).coursesMap.map (fun p => p.2.title)) ↔
        t ∈ (deriveLegacy uids now slots xs).1.map Course.title := by
      intro t
      show _ ↔ t ∈ (List.insertionSort _ _).map Course.title
      rw [(hperm.map Course.title).mem_iff, List.map_map]
      rfl
    refine ⟨?_, ?_, ?_, ?_⟩
    · show (List.map Course.title (List.insertionSort _ _)).Nodup
      rw [(hperm.map Course.title).nodup_iff, List.map_map]
      exact h1
    · intro e he
      exact (List.mem_filter.mp he).2
    · intro e he
      obtain ⟨p, hp, hid⟩ := h3 e (List.mem_of_mem_filter he)
      refine ⟨p.2, ?_, hid⟩
      show p.2 ∈ List.insertionSort _ _
      rw [hperm.mem_iff]
      exact List.mem_map.mpr ⟨p, hp, rfl⟩
    · intro x hx t ht
      exact htitles.mp (legacyFold_captures uids now xs _ hx ht
        ⟨List.nodup_nil, by simp, by simp⟩)

/-- Witness for C8's conditional conjuncts at concrete inputs. -/
theorem migrateLegacy_behavior_witness :
    migrateLegacyIfNeeded [] [] slotsFix
        [none, some none, some (some (.arr [legacyRecA, legacyRecB, legacyRecC]))] uidsFix 7
      = deriveLegacy uidsFix 7 slotsFix [legacyRecA, legacyRecB, legacyRecC] :=
  migrateLegacy_behavior.2.2.1 slotsFix uidsFix 7 [none, some none] []
    [legacyRecA, legacyRecB, legacyRecC] (by decide)


/-! ### Export renderer purity -/

set_option maxRecDepth 8000 in
/-- C6 counterexample: two invocations of `buildExportHtml` with identical
(slots, courses, entries, theme, skin) but different clock readings produce
different HTML strings — the header's formatted timestamp and the embedded
backup's `exportedAt` (both read from the clock inside the function) are
part of the output. -/
theorem buildExportHtml_cx :
    buildExportHtml [] [] [] .dark .default 1 "α"
      ≠ buildExportHtml [] [] [] .dark .default 1 "β"
    ∧ buildExportHtml [] [] [] .dark .default 1 "α"
      ≠ buildExportHtml [] [] [] .dark .default 2 "α" := by
  constructor
  · intro h
    replace h := congrArg String.data h
    simp only [buildExportHtml, String.data_append] at h
    iterate 11 replace h := List.append_cancel_right h
    replace h := List.append_cancel_left h
    exact absurd h (by decide)
  · intro h
    replace h := congrArg String.data h
    simp only [buildExportHtml, String.data_append] at h
    iterate 3 replace h := List.append_cancel_right h
    replace h := List.append_cancel_left h
    exact absurd h (by decide)

/-- C6 (amended): the Export Renderer is a pure function of the five
claimed inputs together with the two clock readings it performs: two
invocations agreeing on (slots, courses, entries, theme, skin) and on the
`Date.now()` / formatted-now readings produce identical HTML strings. -/
theorem buildExportHtml_deterministic (s₁ s₂ : List SlotDef) (c₁ c₂ : List Course)
    (e₁ e₂ : List Entry) (t₁ t₂ : Theme) (k₁ k₂ : ExportSkin) (m₁ m₂ : Int)
    (n₁ n₂ : String) (hs : s₁ = s₂) (hc : c₁ = c₂) (he : e₁ = e₂) (ht : t₁ = t₂)
    (hk : k₁ = k₂) (hm : m₁ = m₂) (hn : n₁ = n₂) :
    buildExportHtml s₁ c₁ e₁ t₁ k₁ m₁ n₁ = buildExportHtml s₂ c₂ e₂ t₂ k₂ m₂ n₂ := by
  subst hs; subst hc; subst he; subst ht; subst hk; subst hm; subst hn; rfl

/-- Witness for C6's amended determinism at concrete inputs. -/
theorem buildExportHtml_deterministic_witness :
    buildExportHtml slotsFix [courseFix] entriesFix .dark .default 0 "x"
      = buildExportHtml slotsFix [courseFix] entriesFix .dark .default 0 "x" :=
  buildExportHtml_deterministic slotsFix slotsFix [courseFix] [courseFix]
    entriesFix entriesFix .dark .dark .default .default 0 0 "x" "x"
    rfl rfl rfl rfl rfl rfl rfl

/-- Witness for C9's session-sortedness at a concrete group. -/
theorem groupByCourse_ordering_witness :
    List.Sorted (sessionLE slotsFix)
      ((⟨courseAlpha, [entryAlpha]⟩ : CourseGroup)).sessions :=
  (groupByCourse_ordering [entryAlpha] [courseAlpha] slotsFix).1
    ⟨courseAlpha, [entryAlpha]⟩ (by decide)

end UniSchedule
